import Mathlib

/-!
Shallow embedding of the droidlet base agent's memory store
(`base_agent/sql_memory.py`, `base_agent/memory_nodes.py`) and command
interpreter (`base_agent/dialogue_objects/interpreter.py`).

The SQLite tables are modelled as Lean lists of typed rows; `INSERT`
appends at the end of the list, `UPDATE` maps over the rows, and
`SELECT ... LIMIT 1` picks the extremal row required by the `ORDER BY`
clause.  Python exceptions are modelled with `Except`.  The opaque hex
strings produced by `uuid.uuid4().hex` are modelled as natural numbers
drawn from a fresh-name counter carried in the state: the reserved
"self" memid (`"0" * 32`) is `0` and every generated uuid is positive.
-/

namespace Droidlet

/-- A row of the `Memories` table: `(uuid, node_type, create_time,
updated_time, attended_time, is_snapshot)`, per the INSERT statements in
`MemoryNode.new` and `AgentMemory.__init__`. -/
structure MemRow where
  uuid : Nat
  node_type : Option String
  create_time : Int
  updated_time : Int
  attended_time : Int
  is_snapshot : Bool
deriving Repr, DecidableEq

/-- A row of the `Triples` table: `(uuid, subj, subj_text, pred,
pred_text, obj, obj_text, confidence)`, per `AgentMemory.add_triple`. -/
structure TripleRow where
  uuid : Nat
  subj : Nat
  subj_text : Option String
  pred : Nat
  pred_text : String
  obj : Nat
  obj_text : Option String
  confidence : ℚ
deriving Repr, DecidableEq

/-- A row of the `Tasks` table: `(uuid, action_name, pickled, paused,
created_at, finished_at)` (`TaskNode.TABLE_COLUMNS`). -/
structure TaskRow where
  uuid : Nat
  action_name : String
  pickled : String
  paused : Bool
  created_at : Int
  finished_at : Int
deriving Repr, DecidableEq

/-- A row of the `Chats` table: `(uuid, speaker, chat, time)`
(`ChatNode.TABLE_COLUMNS`); `speaker` is the speaker's memid. -/
structure ChatRow where
  uuid : Nat
  speaker : Nat
  chat : String
  time : Int
deriving Repr, DecidableEq

/-- A row of the `NamedAbstractions` table: `(uuid, name)`
(`NamedAbstractionNode.TABLE_COLUMNS`). -/
structure NARow where
  uuid : Nat
  name : String
deriving Repr, DecidableEq

/-- A row of one of the generic per-kind attribute tables (the `TABLE`
of a `MemoryNode` subclass).  The head of `TABLE_COLUMNS` is always the
`uuid` column, held here in its own field; `rest` lists the values of
the remaining columns. -/
structure AttrRow where
  table : String
  uuid : Nat
  rest : List String
deriving Repr, DecidableEq

/-- The state of an `AgentMemory`: the SQLite tables, the logical clock
and the fresh-uuid counter. -/
structure Memory where
  memories : List MemRow
  triples : List TripleRow
  tasks : List TaskRow
  chats : List ChatRow
  namedAbstractions : List NARow
  attrs : List AttrRow
  time : Int
  nextUuid : Nat
deriving Repr, DecidableEq

namespace Memory

/-- The reserved "self" memid, `"0" * 32` in `AgentMemory.__init__`
(the only memid not produced by `uuid4`). -/
def selfMemid : Nat := 0

/-- The empty store (tables empty, clock and uuid counter at zero).
`AgentMemory.__init__`'s insertion of the self memory is modelled
separately where a claim needs it. -/
def empty : Memory :=
  { memories := [], triples := [], tasks := [], chats := [],
    namedAbstractions := [], attrs := [], time := 0, nextUuid := 0 }

/-- Model of `uuid.uuid4().hex`: a deterministic fresh positive id drawn
from the counter carried in the state (never colliding with
`selfMemid = 0`). -/
def freshUuid (m : Memory) : Nat × Memory :=
  (m.nextUuid + 1, { m with nextUuid := m.nextUuid + 1 })

/-- Modelled from the spec: the `Time` class of `base_agent/base_util.py`
is not under `src/`; the spec describes it as a "monotonic logical clock
the store timestamps everything against; advances deterministically on
request".  `AgentMemory.get_time` returns the clock value. -/
def get_time (m : Memory) : Int := m.time

/-- Modelled from the spec: `AgentMemory.add_tick` advances the logical
clock by `ticks`. -/
def add_tick (m : Memory) (ticks : Int) : Memory :=
  { m with time := m.time + ticks }

end Memory

/-! ## Task ledger (`AgentMemory.task_stack_*`)

The Tasks-table defaults for `paused` and `finished_at` come from
`base_memory_schema.sql`, which is not under `src/`.  Modelled from the
spec: a task activation carries "`finished_at` (negative/unset while
active), `paused: bool`", so a freshly inserted task has `paused = false`
and `finished_at = -1` (matching the `finished_at < 0` tests in
`task_stack_peek` and friends). -/

/-- Schema default for `finished_at` (negative/unset while active). -/
def defaultFinishedAt : Int := -1

/-- A Python `Task` object, as far as `TaskNode.create` inspects it:
its class name (`task.__class__.__name__`) and its pickled payload. -/
structure TaskObj where
  className : String
  pickled : String
deriving Repr, DecidableEq

/-! ## Node types and the `nodes` dispatch dictionary -/

namespace TaskNode

/-- `TaskNode.NODE_TYPE`. -/
def NODE_TYPE : String := "Task"

end TaskNode

namespace ChatNode

/-- `ChatNode.NODE_TYPE` — the source sets it to `"Time"`, not
`"Chat"`. -/
def NODE_TYPE : String := "Time"

end ChatNode

namespace TimeNode

/-- `TimeNode.NODE_TYPE`. -/
def NODE_TYPE : String := "Time"

end TimeNode

namespace NamedAbstractionNode

/-- `NamedAbstractionNode.NODE_TYPE`. -/
def NODE_TYPE : String := "NamedAbstraction"

end NamedAbstractionNode

/-- `memory_nodes.NODELIST`, in source order, as pairs of class name and
`NODE_TYPE`. -/
def NODELIST : List (String × String) :=
  [("TaskNode", TaskNode.NODE_TYPE),
   ("ChatNode", ChatNode.NODE_TYPE),
   ("LocationNode", "Location"),
   ("AttentionNode", "Attention"),
   ("SetNode", "Set"),
   ("TimeNode", TimeNode.NODE_TYPE),
   ("PlayerNode", "Player"),
   ("SelfNode", "Self"),
   ("ProgramNode", "Program"),
   ("NamedAbstractionNode", NamedAbstractionNode.NODE_TYPE)]

/-- Python `dict` assignment `d[k] = v`: replace the binding of `k` in
place when present, otherwise append it. -/
def dictInsert (d : List (String × String)) (k v : String) : List (String × String) :=
  match d with
  | [] => [(k, v)]
  | (k', v') :: rest => if k' = k then (k, v) :: rest else (k', v') :: dictInsert rest k v

/-- Python `dict.get`. -/
def dictGet (d : List (String × String)) (k : String) : Option String :=
  (d.find? fun p => p.1 == k).map (·.2)

/-- The `self.nodes` dictionary of `AgentMemory.__init__`:
`for node in nodelist: self.nodes[node.NODE_TYPE] = node`; a later class
with the same `NODE_TYPE` overwrites an earlier one. -/
def nodesDict : List (String × String) :=
  NODELIST.foldl (fun d p => dictInsert d p.2 p.1) []

/-! ## Generic node creation -/

namespace MemoryNode

/-- `MemoryNode.new`: insert a fresh row into the Memories table with
the class's `NODE_TYPE`, the current time for all three timestamps, and
the given snapshot flag. -/
def new (m : Memory) (nodeType : Option String) (snapshot : Bool) : Nat × Memory :=
  let (memid, m) := m.freshUuid
  let t := m.get_time
  (memid,
    { m with memories := m.memories ++
        [{ uuid := memid, node_type := nodeType, create_time := t,
           updated_time := t, attended_time := t, is_snapshot := snapshot }] })

end MemoryNode

namespace TaskNode

/-- `TaskNode.create`: a Memories row via `MemoryNode.new` plus a Tasks
row `(uuid, action_name, pickled, created_at)` with the schema defaults
for `paused` and `finished_at`. -/
def create (m : Memory) (task : TaskObj) : Nat × Memory :=
  let (memid, m) := MemoryNode.new m (some NODE_TYPE) false
  let trow : TaskRow :=
    { uuid := memid, action_name := task.className, pickled := task.pickled,
      paused := false, created_at := m.get_time, finished_at := defaultFinishedAt }
  (memid, { m with tasks := m.tasks ++ [trow] })

end TaskNode

namespace NamedAbstractionNode

/-- `NamedAbstractionNode.create`: reuse the uuid of an existing
`NamedAbstractions` row with the given name; otherwise create a fresh
Memories entry of node type `"NamedAbstraction"` plus the
`NamedAbstractions` row. -/
def create (m : Memory) (name : String) : Nat × Memory :=
  match m.namedAbstractions.find? (fun r => r.name == name) with
  | some r => (r.uuid, m)
  | none =>
      let (memid, m) := MemoryNode.new m (some NODE_TYPE) false
      (memid, { m with namedAbstractions := m.namedAbstractions ++ [⟨memid, name⟩] })

end NamedAbstractionNode

/-! ## Triples -/

namespace Memory

/-- `AgentMemory.add_triple`.  `subj`/`obj` are `Option` memids, `none`
standing for the falsy Python default `""`; `subj_text`/`obj_text` use
the empty string as the falsy default.  The four `assert` statements are
modelled as `AssertionError` results; past them, a `NamedAbstraction` is
materialized for the predicate text and for whichever of subject and
object was given as text, and the triple row is inserted. -/
def add_triple (m : Memory) (subj obj : Option Nat) (subj_text pred_text obj_text : String)
    (confidence : ℚ) : Except String Memory :=
  if subj.isNone && subj_text == "" then .error "AssertionError: subj or subj_text"
  else if obj.isNone && obj_text == "" then .error "AssertionError: obj or obj_text"
  else if subj.isSome && subj_text != "" then .error "AssertionError: not (subj and subj_text)"
  else if obj.isSome && obj_text != "" then .error "AssertionError: not (obj and obj_text)"
  else
    let (memid, m) := m.freshUuid
    let (pred, m) := NamedAbstractionNode.create m pred_text
    let (obj, m) := match obj with
      | none => NamedAbstractionNode.create m obj_text
      | some o => (o, m)
    let (subj, m) := match subj with
      | none => NamedAbstractionNode.create m subj_text
      | some s => (s, m)
    let subjT : Option String := if subj_text == "" then none else some subj_text
    let objT : Option String := if obj_text == "" then none else some obj_text
    .ok { m with triples := m.triples ++
        [{ uuid := memid, subj := subj, subj_text := subjT, pred := pred,
           pred_text := pred_text, obj := obj, obj_text := objT,
           confidence := confidence }] }

/-- `AgentMemory.tag`:
`add_triple(subj=subj_memid, pred_text="has_tag", obj_text=tag_text)`. -/
def tag (m : Memory) (subj_memid : Nat) (tag_text : String) : Except String Memory :=
  m.add_triple (some subj_memid) none "" "has_tag" tag_text 1

/-- `AgentMemory.get_memids_by_tag`: distinct subjects of `has_tag`
triples with the given object text, inner-joined with Memories on the
subject and restricted to `is_snapshot=0`. -/
def get_memids_by_tag (m : Memory) (tag : String) : List Nat :=
  ((m.triples.filter fun t =>
      t.pred_text == "has_tag" && t.obj_text == some tag &&
      m.memories.any fun mr => mr.uuid == t.subj && !mr.is_snapshot).map (·.subj)).dedup

/-- Does a triple row satisfy the `WHERE` clause assembled by
`get_triples` from the non-`None` filters? -/
def tripleWhere (subj obj : Option Nat) (subj_text pred_text obj_text : Option String)
    (t : TripleRow) : Bool :=
  (match subj with | none => true | some s => t.subj == s) &&
  (match subj_text with | none => true | some s => t.subj_text == some s) &&
  (match pred_text with | none => true | some s => t.pred_text == s) &&
  (match obj with | none => true | some o => t.obj == o) &&
  (match obj_text with | none => true | some s => t.obj_text == some s)

/-- `AgentMemory.get_triples`.  Filters are `Option`s mirroring the
Python `None` defaults; the result rows are
`(subj, pred_text, obj-or-obj_text)` where the memid-or-text third
component is a sum (`Sum.inl` a memid, `Sum.inr` a text, `none` exactly
when Python would put `None` in the tuple under
`return_obj_text="always"`).  The query inner-joins Memories on the
subject and keeps `is_snapshot=0` rows only. -/
def get_triples (m : Memory) (subj obj : Option Nat)
    (subj_text pred_text obj_text : Option String)
    (return_obj_text : String) :
    Except String (List (Nat × String × Option (Nat ⊕ String))) :=
  if !(subj.isSome || subj_text.isSome || pred_text.isSome || obj.isSome || obj_text.isSome) then
    .error "AssertionError: need at least one filter"
  else if subj.isSome && subj_text.isSome then .error "AssertionError: not (subj and subj_text)"
  else if obj.isSome && obj_text.isSome then .error "AssertionError: not (obj and obj_text)"
  else
    let rows := m.triples.filter fun t =>
      (m.memories.any fun mr => mr.uuid == t.subj && !mr.is_snapshot) &&
      tripleWhere subj obj subj_text pred_text obj_text t
    .ok <| rows.map fun t =>
      if return_obj_text == "if_exists" then
        (t.subj, t.pred_text, some (match t.obj_text with
          | some ot => Sum.inr ot
          | none => Sum.inl t.obj))
      else if return_obj_text == "always" then
        (t.subj, t.pred_text, t.obj_text.map Sum.inr)
      else
        (t.subj, t.pred_text, some (Sum.inl t.obj))

end Memory

/-! ## Chats -/

namespace ChatNode

/-- `ChatNode.create`: a Memories row via `MemoryNode.new` (with
`ChatNode.NODE_TYPE`) plus a `Chats` row stamped with the current
time. -/
def create (m : Memory) (speaker : Nat) (chat : String) : Nat × Memory :=
  let (memid, m) := MemoryNode.new m (some NODE_TYPE) false
  (memid,
    { m with chats := m.chats ++
        [{ uuid := memid, speaker := speaker, chat := chat, time := m.get_time }] })

end ChatNode

namespace Memory

/-- `AgentMemory.add_chat` — delegates to `ChatNode.create`. -/
def add_chat (m : Memory) (speaker_memid : Nat) (chat : String) : Nat × Memory :=
  ChatNode.create m speaker_memid chat

/-- `SELECT ... ORDER BY key DESC LIMIT 1`: the first row (in table
order) with maximal key.  Later rows replace the current candidate only
when strictly newer. -/
def latestBy {α : Type} (key : α → Int) (rows : List α) : Option α :=
  rows.foldl
    (fun acc r =>
      match acc with
      | none => some r
      | some best => if key best < key r then some r else some best)
    none

/-- `SELECT ... ORDER BY key LIMIT 1`: the first row (in table order)
with minimal key. -/
def earliestBy {α : Type} (key : α → Int) (rows : List α) : Option α :=
  rows.foldl
    (fun acc r =>
      match acc with
      | none => some r
      | some best => if key r < key best then some r else some best)
    none

/-- `AgentMemory.get_most_recent_incoming_chat`: latest `Chats` row with
`speaker != self_memid AND time >= after`. -/
def get_most_recent_incoming_chat (m : Memory) (after : Int) : Option ChatRow :=
  latestBy (·.time) (m.chats.filter fun c => c.speaker != selfMemid && c.time ≥ after)

/-! ## Memory lookup and dispatch -/

/-- `AgentMemory.get_node_from_memid`: destructures
`(r,) = _db_read_one(...)`, so a missing row raises a `TypeError`;
otherwise returns the stored `node_type`. -/
def get_node_from_memid (m : Memory) (memid : Nat) : Except String (Option String) :=
  match m.memories.find? (fun r => r.uuid == memid) with
  | none => .error "TypeError: cannot unpack non-iterable NoneType object"
  | some r => .ok r.node_type

/-- `AgentMemory.get_mem_by_id`, returning the name of the node class
whose constructor is dispatched (`self.nodes.get(node_type, MemoryNode)`).
When `node_type` is not supplied it is looked up with
`get_node_from_memid`. -/
def get_mem_by_id (m : Memory) (memid : Nat) (node_type : Option String) :
    Except String String := do
  let nt ← match node_type with
    | none => m.get_node_from_memid memid
    | some s => pure (some s)
  match nt with
  | none => pure "MemoryNode"
  | some s => pure ((dictGet nodesDict s).getD "MemoryNode")

/-- `AgentMemory.get_recent_entities`: uuids of Memories rows of the
given node type, attended within the window, and not snapshots, ordered
by `attended_time DESC` (the source then wraps each uuid with
`get_mem_by_id`). -/
def get_recent_entities (m : Memory) (memtype : String) (time_window : Int) : List Nat :=
  ((m.memories.filter fun r =>
      r.node_type == some memtype && decide (r.attended_time ≥ m.get_time - time_window) &&
      !r.is_snapshot).insertionSort (fun a b => b.attended_time ≤ a.attended_time)).map (·.uuid)

/-! ## Snapshots -/

/-- `link_archive_to_mem`: the two linking triples
`(archive _archive_of mem)` and `(mem _has_archive archive)`. -/
def link_archive_to_mem (m : Memory) (memid archive_memid : Nat) :
    Except String Memory := do
  let m ← m.add_triple (some archive_memid) (some memid) "" "_archive_of" "" 1
  m.add_triple (some memid) (some archive_memid) "" "_has_archive" "" 1

/-- `MemoryNode.snapshot` (the generic base-class version): read the
node's attribute row from its `TABLE`, failing with
"tried to snapshot nonexistent memory" when absent; create a fresh
Memories entry with the class's `NODE_TYPE` and `is_snapshot=True`;
insert a copy of the attribute row, with the uuid column replaced by the
archive's, into `ARCHIVE_TABLE` when the class has one and `TABLE`
otherwise; and add the two linking triples. -/
def snapshot (m : Memory) (memid : Nat) (nodeType : Option String)
    (table archiveTable : String) : Except String (Nat × Memory) :=
  match m.attrs.find? (fun a => a.table == table && a.uuid == memid) with
  | none => .error "tried to snapshot nonexistent memory"
  | some data =>
      let (archive_memid, m') := MemoryNode.new m nodeType true
      let arow : AttrRow := { table := archiveTable, uuid := archive_memid, rest := data.rest }
      let m' := { m' with attrs := m'.attrs ++ [arow] }
      match m'.link_archive_to_mem memid archive_memid with
      | .error e => .error e
      | .ok m'' => .ok (archive_memid, m'')

/-! ## Task stack operations -/

/-- A task row counts as on the stack ("active") when it is unfinished
and not paused: the `WHERE finished_at < 0 AND paused = 0` filter of
`task_stack_peek`. -/
def taskActive (r : TaskRow) : Bool := r.finished_at < 0 && !r.paused

/-- `AgentMemory.task_stack_push`: create the task node, then add the
`_has_parent_task` triple when a parent is given and the `chat_effect_`
triple (from the most recent incoming chat, asserted to exist) when
`chat_effect` is set. -/
def task_stack_push (m : Memory) (task : TaskObj) (parent_memid : Option Nat)
    (chat_effect : Bool) : Except String (Nat × Memory) := do
  let (memid, m) := TaskNode.create m task
  let m ← match parent_memid with
    | some p => m.add_triple (some memid) (some p) "" "_has_parent_task" "" 1
    | none => pure m
  let m ← if chat_effect then
      match m.get_most_recent_incoming_chat (-1) with
      | none => .error "AssertionError: chat_effect=True with no incoming chats"
      | some chat => m.add_triple (some chat.uuid) (some memid) "" "chat_effect_" "" 1
    else pure m
  .ok (memid, m)

/-- `AgentMemory.task_stack_peek`: most recently created task with
`finished_at < 0 AND paused = 0`, or `None`. -/
def task_stack_peek (m : Memory) : Option TaskRow :=
  latestBy (·.created_at) (m.tasks.filter taskActive)

/-- `AgentMemory.task_stack_pop`: peek, raise
`ValueError("Called task_stack_pop with empty stack")` when the stack is
empty, otherwise mark the peeked task finished at the current time. -/
def task_stack_pop (m : Memory) : Except String (TaskRow × Memory) :=
  match m.task_stack_peek with
  | none => .error "ValueError: Called task_stack_pop with empty stack"
  | some mem =>
      .ok (mem,
        { m with tasks :=
            m.tasks.map fun r =>
              if r.uuid = mem.uuid then { r with finished_at := m.get_time } else r })

/-- `AgentMemory.task_stack_pause`:
`UPDATE Tasks SET paused=1 WHERE finished_at < 0`, returning
`rowcount > 0`.  SQLite's change counter counts every row matched by the
`WHERE` clause of an `UPDATE`, even when the stored value is unchanged. -/
def task_stack_pause (m : Memory) : Bool × Memory :=
  ((m.tasks.filter fun r => r.finished_at < 0).length > 0,
    { m with tasks :=
        m.tasks.map fun r => if r.finished_at < 0 then { r with paused := true } else r })

/-- `AgentMemory.task_stack_resume`: `UPDATE Tasks SET paused=0` (no
`WHERE` clause), returning `rowcount > 0`: every row of the table is
matched. -/
def task_stack_resume (m : Memory) : Bool × Memory :=
  (m.tasks.length > 0,
    { m with tasks := m.tasks.map fun r => { r with paused := false } })

/-- `AgentMemory.task_stack_find_lowest_instance`:
`SELECT uuid FROM Tasks WHERE action_name=? OR ... ORDER BY created_at
LIMIT 1` — note: no filter on `paused` or `finished_at`.  The result of
`_db_read_one` is destructured `(memid,) = ...`, so a `None` result (no
matching row) raises a `TypeError` before the dead `else: return None`
branch can run. -/
def task_stack_find_lowest_instance (m : Memory) (cls_names : List String) :
    Except String (Option TaskRow) :=
  match earliestBy (·.created_at) (m.tasks.filter fun r => cls_names.contains r.action_name) with
  | none => .error "TypeError: cannot unpack non-iterable NoneType object"
  | some r => .ok (some r)

/-- `AgentMemory.task_stack_get_all`: all rows with
`paused=0 AND finished_at<0`, in `created_at` order (table order already
agrees for the claims, which assume strictly increasing push times). -/
def task_stack_get_all (m : Memory) : List TaskRow :=
  m.tasks.filter taskActive

/-- Modelled from the spec: `Time.round_time` (used for the default undo
recency window) lives in `base_agent/base_util.py`, which is not under
`src/`; the spec fixes only that the clock is a logical counter, so the
window conversion is the identity. -/
def round_time (n : Int) : Int := n

/-- `AgentMemory.get_last_finished_root_task`: tasks finished within the
recency window (optionally filtered by action name), visited in
`created_at DESC` order, skipping any task with a `_has_parent_task`
triple; returns the first root found, or `None` (the `raise` is
commented out in the source). -/
def get_last_finished_root_task (m : Memory) (action_name : Option String)
    (recency : Option Int) : Option TaskRow :=
  let recency := recency.getD (round_time 300)
  let candidates := m.tasks.filter fun r =>
    decide (r.finished_at ≥ m.get_time - recency) &&
    (match action_name with | none => true | some a => r.action_name == a)
  let ordered := candidates.insertionSort (fun a b => b.created_at ≤ a.created_at)
  ordered.find? fun r =>
    !(m.triples.any fun t => t.pred_text == "_has_parent_task" && t.subj == r.uuid)

end Memory

/-! ## The command interpreter (`dialogue_objects/interpreter.py`)

The pluggable sub-resolvers (`self.subinterpret`) and the task classes
(`self.task_objects`) are consumed as opaque interfaces, exactly as the
source treats them; they are fields of the `Interpreter` record. -/

/-- One action mapping of a structured command: its required
`action_type` plus the optional keys the base handlers look at.
`location` and `stop_condition` hold opaque logical forms. -/
structure ActionDef where
  action_type : String
  undo_action : Option String
  location : Option String
  stop_condition : Option String
deriving Repr, DecidableEq

/-- The structured command (`action_dict`) consumed by the interpreter:
`dialogue_type` plus the optional `action` / `action_sequence` keys. -/
structure ActionDict where
  dialogue_type : String
  action : Option ActionDef
  action_sequence : Option (List ActionDef)
deriving Repr, DecidableEq

/-- The mutable state an `Interpreter.step` invocation threads: the
memory handle, the `finished` flag, loop bookkeeping, the dialogue stack
(`ConfirmTask` entries pushed by UNDO, as question text plus the undone
task's memid), and a ghost `trace` recording the `action_type` of each
handler invocation in order. -/
structure InterpState where
  memory : Memory
  finished : Bool
  loop_data : Option Nat
  archived_loop_data : Option Nat
  dialogue_stack : List (String × Nat)
  trace : List String
deriving Repr, DecidableEq

/-- The Python exceptions `Interpreter.step` distinguishes.
`nextDialogueStep` and `errorWithResponse` carry the interpreter state
at the raise point (Python mutations before a raise persist);
`pyError` models fatal exceptions (`KeyError`, `AssertionError`,
`AttributeError`) that propagate out of `step`. -/
inductive InterpExc where
  | nextDialogueStep (st : InterpState)
  | errorWithResponse (chat : String) (st : InterpState)
  | pyError (msg : String)

/-- An `Interpreter` dialogue object: the speaker, the logical form, and
the opaque sub-resolver interfaces used by `handle_move`
(`self.subinterpret` entries; a `.error s` result models a raised
`ErrorWithResponse(s)` inside the resolver pipeline). -/
structure Interpreter where
  speaker : Nat
  action_dict : ActionDict
  ref_locations : Nat → Option String → List Nat
  resolve_condition : String → Except String Unit
  move_new_tasks : ActionDef → Option Nat → Except String (List TaskObj)

namespace Interp

/-- `Interpreter.append_new_task`: add a tick "to avoid two tasks having
same timestamp", then `task_stack_push(task, chat_effect=True)`.  A
failed push assertion is a fatal Python error. -/
def append_new_task (st : InterpState) (task : TaskObj) : Except InterpExc InterpState :=
  let m := st.memory.add_tick 1
  match m.task_stack_push task none true with
  | .error e => .error (.pyError e)
  | .ok (_, m) => .ok { st with memory := m }

/-- `Interpreter.handle_otheraction`: set `finished` and answer with the
canned apology. -/
def handle_otheraction (st : InterpState) : Except InterpExc (Option String × InterpState) :=
  .ok (some "I don't know how to do that yet", { st with finished := true })

/-- `Interpreter.handle_stop`: set `finished`, archive any loop data,
pause the task stack, and answer according to whether the pause reported
a change. -/
def handle_stop (st : InterpState) : Except InterpExc (Option String × InterpState) :=
  let st := { st with finished := true }
  let st := match st.loop_data with
    | some ld => { st with archived_loop_data := some ld, loop_data := none }
    | none => st
  let (changed, m) := st.memory.task_stack_pause
  let st := { st with memory := m }
  if changed then .ok (some "Stopping.  What should I do next?", st)
  else .ok (some "I am not doing anything", st)

/-- `Interpreter.handle_resume`: set `finished`, resume the task stack,
and when the resume reported a change restore any archived loop data. -/
def handle_resume (st : InterpState) : Except InterpExc (Option String × InterpState) :=
  let st := { st with finished := true }
  let (changed, m) := st.memory.task_stack_resume
  let st := { st with memory := m }
  if changed then
    let st := match st.archived_loop_data with
      | some ad => { st with loop_data := some ad, archived_loop_data := none }
      | none => st
    .ok (some "resuming", st)
  else .ok (some "nothing to resume", st)

/-- `TaskNode.get_chat` composed with `.chat_text` as `handle_undo` uses
it: the text of the chat whose `chat_effect_` triple points at the task,
or `none` when there is no such triple (in which case Python's
`old_task.get_chat().chat_text` raises an `AttributeError`). -/
def get_chat_text (m : Memory) (task_memid : Nat) : Option String :=
  match m.get_triples none (some task_memid) none (some "chat_effect_") none "if_exists" with
  | .error _ => none
  | .ok [] => none
  | .ok ((chat_id, _, _) :: _) => (m.chats.find? fun c => c.uuid == chat_id).map (·.chat)

/-- `Interpreter.handle_undo`: derive the action-name hint from
`undo_action` (`split("_")[0].strip()`), look up the last finished root
task (raising `ErrorWithResponse("Nothing to be undone ...")` when there
is none), and stage a `ConfirmTask` sub-dialogue offering an `Undo` task
for it. -/
def handle_undo (st : InterpState) (d : ActionDef) : Except InterpExc (Option String × InterpState) := do
  let task_name := d.undo_action.map fun s => ((s.splitOn "_").headD "").trim
  let old ← match st.memory.get_last_finished_root_task task_name none with
    | none => .error (.errorWithResponse "Nothing to be undone ..." st)
    | some t => pure t
  let undo_command ← match get_chat_text st.memory old.uuid with
    | none => .error (.pyError "AttributeError: NoneType object has no attribute chat_text")
    | some c => pure c
  let st := { st with dialogue_stack := st.dialogue_stack ++
      [("Do you want me to undo the command: \"" ++ undo_command ++ "\" ?", old.uuid)] }
  .ok (none, { st with finished := true })

/-- `Interpreter.handle_move`: with a `stop_condition`, resolve the
condition, remember the first resolved reference location as loop data,
and push a single `Loop` task; otherwise run the `new_tasks` closure
(the opaque location pipeline) and push each resulting `Move` task.
Either way `finished` is set on success. -/
def handle_move (I : Interpreter) (st : InterpState) (d : ActionDef) :
    Except InterpExc (Option String × InterpState) := do
  match d.stop_condition with
  | some sc => do
      let _ ← match I.resolve_condition sc with
        | .error s => .error (.errorWithResponse s st)
        | .ok u => pure u
      let mems := I.ref_locations I.speaker d.location
      let st := match mems.head? with
        | some mem0 => { st with loop_data := some mem0 }
        | none => st
      let st ← append_new_task st { className := "Loop", pickled := "loop_task_data" }
      .ok (none, { st with finished := true })
  | none => do
      let tasks ← match I.move_new_tasks d st.loop_data with
        | .error s => .error (.errorWithResponse s st)
        | .ok l => pure l
      let st ← tasks.foldlM (fun s t => append_new_task s t) st
      .ok (none, { st with finished := true })

/-- The keys of the `self.action_handlers` dispatch table. -/
def handlerKeys : List String := ["MOVE", "STOP", "RESUME", "UNDO", "OTHERACTION"]

/-- `self.action_handlers[action_type](self.speaker, action_def)`:
dispatch one action to its handler.  Assumes the key is present (the
`KeyError` of a missing key is raised by the caller's lookup). -/
def dispatch (I : Interpreter) (d : ActionDef) (st : InterpState) :
    Except InterpExc (Option String × InterpState) :=
  if d.action_type == "MOVE" then handle_move I st d
  else if d.action_type == "STOP" then handle_stop st
  else if d.action_type == "RESUME" then handle_resume st
  else if d.action_type == "UNDO" then handle_undo st d
  else handle_otheraction st

/-- The `for action_def in actions:` loop of `Interpreter.step`:
look up the handler (a missing key raises `KeyError` before any
invocation), record the invocation on the ghost trace, run the handler,
and carry its response; the loop returns the response of the last
handler. -/
def runActions (I : Interpreter) : List ActionDef → InterpState → Option String →
    Except InterpExc (Option String × InterpState)
  | [], st, response => .ok (response, st)
  | d :: rest, st, _ =>
      if handlerKeys.contains d.action_type then do
        let (resp, st) ← dispatch I d { st with trace := st.trace ++ [d.action_type] }
        runActions I rest st resp
      else .error (.pyError ("KeyError: " ++ d.action_type))

/-- `Interpreter.step`.  Asserts the dialogue type; collects the actions
(a single `action` wins over `action_sequence`; a sequence is
`reverse()`d in place before the loop); raises-and-catches the
"nothing to do" `ErrorWithResponse` when no action is present; runs the
loop; and converts the two caught exception kinds into returns.  The
result is the returned chat response (`None` models Python `None`)
paired with the final state; a `.error` is a fatal uncaught Python
exception. -/
def step (I : Interpreter) (st : InterpState) :
    Except String (Option String × InterpState) :=
  if I.action_dict.dialogue_type != "HUMAN_GIVE_COMMAND" then
    .error "AssertionError: dialogue_type"
  else
    let actions : List ActionDef :=
      match I.action_dict.action with
      | some a => [a]
      | none =>
          match I.action_dict.action_sequence with
          | some s => s.reverse
          | none => []
    if actions.isEmpty then
      .ok (some "I thought you wanted me to do something, but now I don't know what",
           { st with finished := true })
    else
      match runActions I actions st none with
      | .ok (resp, st') => .ok (resp, st')
      | .error (.nextDialogueStep st') => .ok (none, st')
      | .error (.errorWithResponse chat st') => .ok (some chat, { st' with finished := true })
      | .error (.pyError e) => .error e

end Interp

/-! ## Helper lemmas about the `ORDER BY ... LIMIT 1` folds -/

theorem latestBy_foldl_some {α : Type} (key : α → Int) (l : List α) (b : α) :
    ∃ r, List.foldl (fun acc x => match acc with
        | none => some x
        | some best => if key best < key x then some x else some best) (some b) l = some r
      ∧ (r = b ∨ r ∈ l) ∧ key b ≤ key r ∧ ∀ x ∈ l, key x ≤ key r := by
  induction l generalizing b with
  | nil => exact ⟨b, rfl, Or.inl rfl, le_refl _, by simp⟩
  | cons a t ih =>
      simp only [List.foldl_cons]
      by_cases h : key b < key a
      · obtain ⟨r, hr, hmem, hge, hall⟩ := ih a
        refine ⟨r, by simpa [h] using hr, ?_, le_trans (le_of_lt h) hge, ?_⟩
        · rcases hmem with h1 | h1
          · exact Or.inr (by simp [h1])
          · exact Or.inr (List.mem_cons_of_mem _ h1)
        · intro x hx
          rcases List.mem_cons.mp hx with rfl | hx
          · exact hge
          · exact hall x hx
      · obtain ⟨r, hr, hmem, hge, hall⟩ := ih b
        refine ⟨r, by simpa [h] using hr, ?_, hge, ?_⟩
        · rcases hmem with h1 | h1
          · exact Or.inl h1
          · exact Or.inr (List.mem_cons_of_mem _ h1)
        · intro x hx
          rcases List.mem_cons.mp hx with rfl | hx
          · exact le_trans (not_lt.mp h) hge
          · exact hall x hx

theorem latestBy_spec {α : Type} (key : α → Int) (l : List α) (hl : l ≠ []) :
    ∃ r, Memory.latestBy key l = some r ∧ r ∈ l ∧ ∀ x ∈ l, key x ≤ key r := by
  match l, hl with
  | a :: t, _ =>
      obtain ⟨r, hr, hmem, hge, hall⟩ := latestBy_foldl_some key t a
      refine ⟨r, ?_, ?_, ?_⟩
      · simpa [Memory.latestBy] using hr
      · rcases hmem with rfl | h1
        · exact List.mem_cons_self _ _
        · exact List.mem_cons_of_mem _ h1
      · intro x hx
        rcases List.mem_cons.mp hx with rfl | hx
        · exact hge
        · exact hall x hx

theorem latestBy_nil {α : Type} (key : α → Int) : Memory.latestBy key ([] : List α) = none := rfl

theorem earliestBy_foldl_some {α : Type} (key : α → Int) (l : List α) (b : α) :
    ∃ r, List.foldl (fun acc x => match acc with
        | none => some x
        | some best => if key x < key best then some x else some best) (some b) l = some r
      ∧ (r = b ∨ r ∈ l) ∧ key r ≤ key b ∧ ∀ x ∈ l, key r ≤ key x := by
  induction l generalizing b with
  | nil => exact ⟨b, rfl, Or.inl rfl, le_refl _, by simp⟩
  | cons a t ih =>
      simp only [List.foldl_cons]
      by_cases h : key a < key b
      · obtain ⟨r, hr, hmem, hge, hall⟩ := ih a
        refine ⟨r, by simpa [h] using hr, ?_, le_trans hge (le_of_lt h), ?_⟩
        · rcases hmem with h1 | h1
          · exact Or.inr (by simp [h1])
          · exact Or.inr (List.mem_cons_of_mem _ h1)
        · intro x hx
          rcases List.mem_cons.mp hx with rfl | hx
          · exact hge
          · exact hall x hx
      · obtain ⟨r, hr, hmem, hge, hall⟩ := ih b
        refine ⟨r, by simpa [h] using hr, ?_, hge, ?_⟩
        · rcases hmem with h1 | h1
          · exact Or.inl h1
          · exact Or.inr (List.mem_cons_of_mem _ h1)
        · intro x hx
          rcases List.mem_cons.mp hx with rfl | hx
          · exact le_trans hge (not_lt.mp h)
          · exact hall x hx

theorem earliestBy_spec {α : Type} (key : α → Int) (l : List α) (hl : l ≠ []) :
    ∃ r, Memory.earliestBy key l = some r ∧ r ∈ l ∧ ∀ x ∈ l, key r ≤ key x := by
  match l, hl with
  | a :: t, _ =>
      obtain ⟨r, hr, hmem, hge, hall⟩ := earliestBy_foldl_some key t a
      refine ⟨r, ?_, ?_, ?_⟩
      · simpa [Memory.earliestBy] using hr
      · rcases hmem with rfl | h1
        · exact List.mem_cons_self _ _
        · exact List.mem_cons_of_mem _ h1
      · intro x hx
        rcases List.mem_cons.mp hx with rfl | hx
        · exact hge
        · exact hall x hx

/-! ## C7: pop on an empty stack raises, peek returns an absent value -/

/-- C7: when no active task exists, `task_stack_pop` raises a
`ValueError` (a fatal contract violation), while `task_stack_peek` on
the same state returns `None` rather than raising. -/
theorem task_stack_pop_empty_fatal (m : Memory)
    (h : ∀ r ∈ m.tasks, Memory.taskActive r = false) :
    m.task_stack_pop = .error "ValueError: Called task_stack_pop with empty stack" ∧
    m.task_stack_peek = none := by
  have hfilter : m.tasks.filter Memory.taskActive = [] := by
    rw [List.filter_eq_nil_iff]
    intro a ha
    simp [h a ha]
  have hpeek : m.task_stack_peek = none := by
    rw [Memory.task_stack_peek, hfilter]
    rfl
  refine ⟨?_, hpeek⟩
  rw [Memory.task_stack_pop, hpeek]

/-- Witness for C7 at the empty store. -/
theorem task_stack_pop_empty_fatal_witness :
    Memory.empty.task_stack_pop = .error "ValueError: Called task_stack_pop with empty stack" ∧
    Memory.empty.task_stack_peek = none :=
  task_stack_pop_empty_fatal Memory.empty (by intro r hr; simp [Memory.empty] at hr)

/-! ## C3: pause/resume report matched rows, not changed flags -/

/-- A ledger holding exactly one unfinished, unpaused task. -/
def mPause : Memory :=
  { Memory.empty with tasks :=
      [{ uuid := 1, action_name := "Move", pickled := "p", paused := false,
         created_at := 0, finished_at := -1 }] }

/-- Counterexample to C3: with one active unfinished task, the second
`task_stack_pause` in a row also returns `true` (the claim says it must
return `false`), and so does a second `task_stack_resume`, because both
report the number of rows matched by the SQL `UPDATE`, not whether any
`paused` flag actually changed. -/
theorem pause_twice_counterexample :
    (mPause.task_stack_pause).1 = true ∧
    ((mPause.task_stack_pause).2.task_stack_pause).1 = true ∧
    (((mPause.task_stack_pause).2.task_stack_pause).2.task_stack_resume).1 = true ∧
    ((((mPause.task_stack_pause).2.task_stack_pause).2.task_stack_resume).2.task_stack_resume).1
      = true := by
  decide

/-- The `SET paused=1` update preserves `finished_at`, so an unfinished
task stays unfinished across `task_stack_pause`. -/
theorem pause_keeps_unfinished (m : Memory)
    (h : ∃ r ∈ m.tasks, r.finished_at < 0) :
    ∃ r ∈ (m.task_stack_pause).2.tasks, r.finished_at < 0 := by
  obtain ⟨r, hr, hlt⟩ := h
  refine ⟨if r.finished_at < 0 then { r with paused := true } else r, ?_, ?_⟩
  · simpa [Memory.task_stack_pause] using List.mem_map_of_mem _ hr
  · simp [hlt]

/-- `task_stack_pause` returns `true` whenever an unfinished row exists
(the rows matched by its `WHERE finished_at < 0`). -/
theorem pause_true_of_unfinished (m : Memory)
    (h : ∃ r ∈ m.tasks, r.finished_at < 0) :
    (m.task_stack_pause).1 = true := by
  obtain ⟨r, hr, hlt⟩ := h
  simp only [Memory.task_stack_pause, decide_eq_true_eq]
  exact List.length_pos.mpr (List.ne_nil_of_mem (List.mem_filter.mpr ⟨hr, by simpa using hlt⟩))

/-- `task_stack_resume` returns `true` whenever the Tasks table is
nonempty (its `UPDATE` has no `WHERE` clause). -/
theorem resume_true_of_nonempty (m : Memory) (h : m.tasks ≠ []) :
    (m.task_stack_resume).1 = true := by
  simp only [Memory.task_stack_resume, decide_eq_true_eq]
  exact List.length_pos.mpr h

/-- C3 amended: starting from a state with at least one unfinished task,
`task_stack_pause` returns `true` twice in a row (the second call
matches the same still-unfinished rows), and the two subsequent
`task_stack_resume` calls also both return `true` (their `UPDATE`
matches every row of the nonempty table): the operations report matched
rows, not actual flag changes. -/
theorem pause_resume_report_matched_rows (m : Memory)
    (h : ∃ r ∈ m.tasks, r.finished_at < 0) :
    (m.task_stack_pause).1 = true ∧
    ((m.task_stack_pause).2.task_stack_pause).1 = true ∧
    (((m.task_stack_pause).2.task_stack_pause).2.task_stack_resume).1 = true ∧
    ((((m.task_stack_pause).2.task_stack_pause).2.task_stack_resume).2.task_stack_resume).1
      = true := by
  have h1 := pause_true_of_unfinished m h
  have h2unf := pause_keeps_unfinished m h
  have h2 := pause_true_of_unfinished _ h2unf
  have h3unf := pause_keeps_unfinished _ h2unf
  obtain ⟨r3, hr3, _⟩ := h3unf
  have h3 := resume_true_of_nonempty _ (List.ne_nil_of_mem hr3)
  have h4 : ((((m.task_stack_pause).2.task_stack_pause).2.task_stack_resume).2).tasks ≠ [] := by
    simp only [Memory.task_stack_resume, ne_eq, List.map_eq_nil_iff]
    exact List.ne_nil_of_mem hr3
  exact ⟨h1, h2, h3, resume_true_of_nonempty _ h4⟩

/-- Witness for the amended C3 at a one-task ledger. -/
def mPauseW : Memory :=
  { Memory.empty with tasks :=
      [{ uuid := 7, action_name := "Build", pickled := "q", paused := false,
         created_at := 0, finished_at := -1 }] }

/-- Witness applying the amended C3 theorem at `mPauseW`. -/
theorem pause_resume_report_matched_rows_witness :
    (mPauseW.task_stack_pause).1 = true ∧
    ((mPauseW.task_stack_pause).2.task_stack_pause).1 = true ∧
    (((mPauseW.task_stack_pause).2.task_stack_pause).2.task_stack_resume).1 = true ∧
    ((((mPauseW.task_stack_pause).2.task_stack_pause).2.task_stack_resume).2.task_stack_resume).1
      = true :=
  pause_resume_report_matched_rows mPauseW
    ⟨{ uuid := 7, action_name := "Build", pickled := "q", paused := false,
       created_at := 0, finished_at := -1 }, by decide, by decide⟩

/-! ## C2: find_lowest ignores paused/finished status and raises on no match -/

/-- A ledger holding exactly one task, already finished and paused. -/
def mFind : Memory :=
  { Memory.empty with tasks :=
      [{ uuid := 1, action_name := "Move", pickled := "p", paused := true,
         created_at := 0, finished_at := 5 }] }

/-- Counterexample to C2: `task_stack_find_lowest_instance` returns a
task that is both finished and paused (the claim says such tasks are
never returned), and on a ledger with no matching task it raises a
`TypeError` instead of returning an absent value. -/
theorem find_lowest_counterexample :
    mFind.task_stack_find_lowest_instance ["Move"] =
      .ok (some { uuid := 1, action_name := "Move", pickled := "p", paused := true,
                  created_at := 0, finished_at := 5 }) ∧
    Memory.empty.task_stack_find_lowest_instance ["Move"] =
      .error "TypeError: cannot unpack non-iterable NoneType object" := ⟨rfl, rfl⟩

/-- C2 amended: `task_stack_find_lowest_instance(cls_names)` returns the
earliest-created task whose action name is in the given set regardless
of its paused/finished status (its SQL has no activity filter), and when
no task at all has a matching action name it raises a `TypeError` (the
`(memid,) = ...` destructuring of a `None` read), rather than returning
an absent value. -/
theorem find_lowest_ignores_status (m : Memory) (cls_names : List String) :
    ((∃ r ∈ m.tasks, r.action_name ∈ cls_names) →
      ∃ r, m.task_stack_find_lowest_instance cls_names = .ok (some r) ∧
        r ∈ m.tasks ∧ r.action_name ∈ cls_names ∧
        ∀ x ∈ m.tasks, x.action_name ∈ cls_names → r.created_at ≤ x.created_at) ∧
    ((¬ ∃ r ∈ m.tasks, r.action_name ∈ cls_names) →
      m.task_stack_find_lowest_instance cls_names =
        .error "TypeError: cannot unpack non-iterable NoneType object") := by
  constructor
  · rintro ⟨r, hr, hname⟩
    have hne : m.tasks.filter (fun x => cls_names.contains x.action_name) ≠ [] :=
      List.ne_nil_of_mem (List.mem_filter.mpr ⟨hr, by simpa using hname⟩)
    obtain ⟨b, hb, hbmem, hbmin⟩ := earliestBy_spec (·.created_at) _ hne
    refine ⟨b, ?_, ?_, ?_, ?_⟩
    · rw [Memory.task_stack_find_lowest_instance, hb]
    · exact (List.mem_filter.mp hbmem).1
    · have := (List.mem_filter.mp hbmem).2
      simpa using this
    · intro x hx hxname
      exact hbmin x (List.mem_filter.mpr ⟨hx, by simpa using hxname⟩)
  · intro hno
    have hfilter : m.tasks.filter (fun x => cls_names.contains x.action_name) = [] := by
      rw [List.filter_eq_nil_iff]
      intro a ha hc
      exact hno ⟨a, ha, by simpa using hc⟩
    rw [Memory.task_stack_find_lowest_instance, hfilter]
    rfl

/-- A two-task ledger (one finished) for the amended-C2 witness. -/
def mFindW : Memory :=
  { Memory.empty with tasks :=
      [{ uuid := 1, action_name := "Move", pickled := "p", paused := false,
         created_at := 3, finished_at := 9 },
       { uuid := 2, action_name := "Move", pickled := "q", paused := false,
         created_at := 5, finished_at := -1 }] }

/-- Witness applying the amended C2 theorem at `mFindW`. -/
theorem find_lowest_ignores_status_witness :
    ∃ r, mFindW.task_stack_find_lowest_instance ["Move"] = .ok (some r) ∧
      r ∈ mFindW.tasks ∧ r.action_name ∈ ["Move"] ∧
      ∀ x ∈ mFindW.tasks, x.action_name ∈ ["Move"] → r.created_at ≤ x.created_at :=
  (find_lowest_ignores_status mFindW ["Move"]).1
    ⟨{ uuid := 1, action_name := "Move", pickled := "p", paused := false,
       created_at := 3, finished_at := 9 }, by decide, by decide⟩

/-! ## C4: chats are recorded under node type "Time" and dispatch to TimeNode -/

/-- C4: every chat created through `ChatNode.create` / `add_chat` is
recorded in the Memories table with node type `"Time"` (not `"Chat"`),
so `get_node_from_memid` on the chat's memid returns `"Time"`, and
`get_mem_by_id` without an explicit node type dispatches to the
`TimeNode` constructor (the `nodes` dictionary maps `"Time"` to
`TimeNode`, `ChatNode`'s entry having been overwritten) rather than to
`ChatNode`. -/
theorem add_chat_records_time_node (m : Memory) (speaker : Nat) (chat : String)
    (hFresh : ∀ r ∈ m.memories, r.uuid ≤ m.nextUuid) :
    ∀ memid m', m.add_chat speaker chat = (memid, m') →
      (∃ r ∈ m'.memories, r.uuid = memid ∧ r.node_type = some "Time" ∧
        r.node_type ≠ some "Chat") ∧
      m'.get_node_from_memid memid = .ok (some "Time") ∧
      dictGet nodesDict "Time" = some "TimeNode" ∧
      m'.get_mem_by_id memid none = .ok "TimeNode" := by
  intro memid m' h
  simp only [Memory.add_chat, ChatNode.create, MemoryNode.new, Memory.freshUuid,
    ChatNode.NODE_TYPE, Memory.get_time, Prod.mk.injEq] at h
  obtain ⟨hid, hm⟩ := h
  subst hid
  subst hm
  set newRow : MemRow :=
    { uuid := m.nextUuid + 1, node_type := some "Time", create_time := m.time,
      updated_time := m.time, attended_time := m.time, is_snapshot := false } with hnew
  have hfind : (m.memories ++ [newRow]).find? (fun r => r.uuid == m.nextUuid + 1) =
      some newRow := by
    rw [List.find?_append]
    have h1 : m.memories.find? (fun r => r.uuid == m.nextUuid + 1) = none := by
      rw [List.find?_eq_none]
      intro x hx
      have := hFresh x hx
      simp only [beq_iff_eq]
      omega
    rw [h1]
    simp [hnew]
  have hnode : Memory.get_node_from_memid
      { m with memories := m.memories ++ [newRow],
               chats := m.chats ++ [{ uuid := m.nextUuid + 1, speaker := speaker,
                                      chat := chat, time := m.time }],
               nextUuid := m.nextUuid + 1 } (m.nextUuid + 1) = .ok (some "Time") := by
    simp only [Memory.get_node_from_memid]
    rw [hfind]
  refine ⟨⟨newRow, ?_, rfl, rfl, by simp⟩, hnode, by decide, ?_⟩
  · exact List.mem_append_right _ (List.mem_singleton.mpr rfl)
  · simp only [Memory.get_mem_by_id, hnode]
    rfl

/-- The memory produced by adding one chat to the empty store. -/
def mChatW : Memory := (Memory.empty.add_chat 5 "come here").2

/-- Witness applying the C4 theorem to a concrete chat. -/
theorem add_chat_records_time_node_witness :
    (∃ r ∈ mChatW.memories, r.uuid = 1 ∧ r.node_type = some "Time" ∧
      r.node_type ≠ some "Chat") ∧
    mChatW.get_node_from_memid 1 = .ok (some "Time") ∧
    dictGet nodesDict "Time" = some "TimeNode" ∧
    mChatW.get_mem_by_id 1 none = .ok "TimeNode" :=
  add_chat_records_time_node Memory.empty 5 "come here"
    (by intro r hr; simp [Memory.empty] at hr) 1 mChatW rfl

/-! ## C9: triple and tag queries never return snapshot subjects -/

/-- C9: for every filter combination accepted by `get_triples`, and for
`get_memids_by_tag`, every returned relation's subject is an entity
whose Memories row has `is_snapshot = false`: both queries inner-join
Memories on the subject with `is_snapshot=0`. -/
theorem queries_exclude_snapshots (m : Memory) (subj obj : Option Nat)
    (subj_text pred_text obj_text : Option String) (rmode : String) (tg : String) :
    (∀ l, m.get_triples subj obj subj_text pred_text obj_text rmode = .ok l →
      ∀ x ∈ l, ∃ mr ∈ m.memories, mr.uuid = x.1 ∧ mr.is_snapshot = false) ∧
    (∀ i ∈ m.get_memids_by_tag tg, ∃ mr ∈ m.memories, mr.uuid = i ∧ mr.is_snapshot = false) := by
  constructor
  · intro l hl x hx
    simp only [Memory.get_triples] at hl
    split at hl
    · exact absurd hl (by simp)
    · split at hl
      · exact absurd hl (by simp)
      · split at hl
        · exact absurd hl (by simp)
        · have hl' : l = (m.triples.filter fun t =>
              (m.memories.any fun mr => mr.uuid == t.subj && !mr.is_snapshot) &&
              Memory.tripleWhere subj obj subj_text pred_text obj_text t).map _ :=
            (Except.ok.injEq _ _).mp hl.symm
          subst hl'
          obtain ⟨t, ht, hft⟩ := List.mem_map.mp hx
          obtain ⟨htmem, htcond⟩ := List.mem_filter.mp ht
          rw [Bool.and_eq_true] at htcond
          obtain ⟨hany, _⟩ := htcond
          obtain ⟨mr, hmr, hcond⟩ := List.any_eq_true.mp hany
          rw [Bool.and_eq_true] at hcond
          obtain ⟨huuid, hsnap⟩ := hcond
          refine ⟨mr, hmr, ?_, by simpa using hsnap⟩
          have hx1 : x.1 = t.subj := by
            subst hft
            split
            · rfl
            · split
              · rfl
              · rfl
          rw [hx1]
          exact beq_iff_eq.mp huuid
  · intro i hi
    simp only [Memory.get_memids_by_tag] at hi
    obtain ⟨t, ht, hft⟩ := List.mem_map.mp (List.mem_dedup.mp hi)
    obtain ⟨htmem, htcond⟩ := List.mem_filter.mp ht
    rw [Bool.and_eq_true, Bool.and_eq_true] at htcond
    obtain ⟨_, hany⟩ := htcond
    obtain ⟨mr, hmr, hcond⟩ := List.any_eq_true.mp hany
    rw [Bool.and_eq_true] at hcond
    obtain ⟨huuid, hsnap⟩ := hcond
    refine ⟨mr, hmr, ?_, by simpa using hsnap⟩
    rw [← hft]
    exact beq_iff_eq.mp huuid

/-- A store with one non-snapshot entity carrying one tag triple. -/
def mC9 : Memory :=
  { Memory.empty with
      memories := [{ uuid := 1, node_type := some "Player", create_time := 0,
                     updated_time := 0, attended_time := 0, is_snapshot := false }],
      triples := [{ uuid := 2, subj := 1, subj_text := none, pred := 3,
                    pred_text := "has_tag", obj := 4, obj_text := some "shiny",
                    confidence := 1 }] }

/-- Witness applying the C9 theorem to a concrete query result. -/
theorem queries_exclude_snapshots_witness :
    ∃ mr ∈ mC9.memories, mr.uuid = ((1 : Nat), "has_tag", some (Sum.inr "shiny" : Nat ⊕ String)).1 ∧
      mr.is_snapshot = false :=
  (queries_exclude_snapshots mC9 (some 1) none none (some "has_tag") none "if_exists" "shiny").1
    [(1, "has_tag", some (Sum.inr "shiny"))] rfl (1, "has_tag", some (Sum.inr "shiny"))
    (List.mem_singleton.mpr rfl)

/-! ## C5: LIFO surfacing of active tasks -/

/-- Mapping a function that fixes every element of a list is the
identity. -/
theorem map_eq_self_of {α : Type} (f : α → α) (l : List α) (h : ∀ x ∈ l, f x = x) :
    l.map f = l := by
  induction l with
  | nil => rfl
  | cons a t ih =>
      simp only [List.map_cons, h a (List.mem_cons_self a t),
        ih (fun x hx => h x (List.mem_cons_of_mem a hx))]

/-- `task_stack_push` with no parent and no chat effect reduces to
`TaskNode.create`. -/
theorem push_none_false (m : Memory) (t : TaskObj) :
    m.task_stack_push t none false = .ok (TaskNode.create m t) := rfl

/-- `task_stack_peek` returns the unique strictly-latest row of the
active filter. -/
theorem peek_of_filter {m : Memory} {l : List TaskRow}
    (hf : m.tasks.filter Memory.taskActive = l) (r : TaskRow) (hr : r ∈ l)
    (hstrict : ∀ x ∈ l, x ≠ r → x.created_at < r.created_at) :
    m.task_stack_peek = some r := by
  have hne : l ≠ [] := List.ne_nil_of_mem hr
  obtain ⟨q, hq, hqmem, hqmax⟩ := latestBy_spec (·.created_at) l hne
  have hqr : q = r := by
    by_contra hne'
    have h1 := hstrict q hqmem hne'
    have h2 := hqmax r hr
    simp only at h1 h2
    omega
  rw [Memory.task_stack_peek, hf, hq, hqr]

/-- C5: pushing tasks A, B, C in that order (the clock ticking between
pushes, so `created_at` strictly increases) onto a ledger whose existing
tasks are all inactive makes `task_stack_peek` return C;
`task_stack_pop` then returns C and marks it finished at the current
time, and the next `task_stack_peek` returns B — active tasks surface in
strict reverse creation order. -/
theorem task_stack_lifo (m : Memory) (a b c : TaskObj)
    (hOld : ∀ r ∈ m.tasks, Memory.taskActive r = false)
    (hFresh : ∀ r ∈ m.tasks, r.uuid ≤ m.nextUuid)
    (hTime : 0 ≤ m.time) :
    ∀ ida m1 idb m2 idc m3,
      m.task_stack_push a none false = .ok (ida, m1) →
      (m1.add_tick 1).task_stack_push b none false = .ok (idb, m2) →
      (m2.add_tick 1).task_stack_push c none false = .ok (idc, m3) →
      m3.task_stack_peek.map (·.uuid) = some idc ∧
      (∃ popped m4, m3.task_stack_pop = .ok (popped, m4) ∧ popped.uuid = idc ∧
        (∃ rc ∈ m4.tasks, rc.uuid = idc ∧ rc.finished_at = m3.get_time) ∧
        m4.task_stack_peek.map (·.uuid) = some idb) := by
  intro ida m1 idb m2 idc m3 h1 h2 h3
  rw [push_none_false] at h1 h2 h3
  have e1 : TaskNode.create m a = (m.nextUuid + 1,
      { m with
        memories := m.memories ++
          [{ uuid := m.nextUuid + 1, node_type := some "Task", create_time := m.time,
             updated_time := m.time, attended_time := m.time, is_snapshot := false }],
        tasks := m.tasks ++
          [{ uuid := m.nextUuid + 1, action_name := a.className, pickled := a.pickled,
             paused := false, created_at := m.time, finished_at := -1 }],
        nextUuid := m.nextUuid + 1 }) := rfl
  rw [e1] at h1
  have h1' := Except.ok.inj h1
  rw [Prod.mk.injEq] at h1'
  obtain ⟨hida, hm1⟩ := h1'
  have e2 : ∀ mm : Memory, TaskNode.create mm b = (mm.nextUuid + 1,
      { mm with
        memories := mm.memories ++
          [{ uuid := mm.nextUuid + 1, node_type := some "Task", create_time := mm.time,
             updated_time := mm.time, attended_time := mm.time, is_snapshot := false }],
        tasks := mm.tasks ++
          [{ uuid := mm.nextUuid + 1, action_name := b.className, pickled := b.pickled,
             paused := false, created_at := mm.time, finished_at := -1 }],
        nextUuid := mm.nextUuid + 1 }) := fun _ => rfl
  rw [e2] at h2
  have h2' := Except.ok.inj h2
  rw [Prod.mk.injEq] at h2'
  obtain ⟨hidb, hm2⟩ := h2'
  have e3 : ∀ mm : Memory, TaskNode.create mm c = (mm.nextUuid + 1,
      { mm with
        memories := mm.memories ++
          [{ uuid := mm.nextUuid + 1, node_type := some "Task", create_time := mm.time,
             updated_time := mm.time, attended_time := mm.time, is_snapshot := false }],
        tasks := mm.tasks ++
          [{ uuid := mm.nextUuid + 1, action_name := c.className, pickled := c.pickled,
             paused := false, created_at := mm.time, finished_at := -1 }],
        nextUuid := mm.nextUuid + 1 }) := fun _ => rfl
  rw [e3] at h3
  have h3' := Except.ok.inj h3
  rw [Prod.mk.injEq] at h3'
  obtain ⟨hidc, hm3⟩ := h3'
  -- canonical descriptions of the three pushed rows and the final state
  have hida' : ida = m.nextUuid + 1 := by rw [← hida]
  have n1 : m1.nextUuid = m.nextUuid + 1 := by rw [← hm1]
  have ti1 : m1.time = m.time := by rw [← hm1]
  have n2 : m2.nextUuid = m1.nextUuid + 1 := by rw [← hm2]; rfl
  have ti2 : m2.time = m1.time + 1 := by rw [← hm2]; rfl
  have n3 : m3.nextUuid = m2.nextUuid + 1 := by rw [← hm3]; rfl
  have ti3 : m3.time = m2.time + 1 := by rw [← hm3]; rfl
  have hidb' : idb = m.nextUuid + 2 := by
    have hb : m1.nextUuid + 1 = idb := hidb
    omega
  have hidc' : idc = m.nextUuid + 3 := by
    have hc : m2.nextUuid + 1 = idc := hidc
    omega
  have htm3 : m3.time = m.time + 2 := by omega
  set rowA : TaskRow :=
    { uuid := m.nextUuid + 1, action_name := a.className, pickled := a.pickled,
      paused := false, created_at := m.time, finished_at := -1 } with hrowA
  set rowB : TaskRow :=
    { uuid := m.nextUuid + 2, action_name := b.className, pickled := b.pickled,
      paused := false, created_at := m.time + 1, finished_at := -1 } with hrowB
  set rowC : TaskRow :=
    { uuid := m.nextUuid + 3, action_name := c.className, pickled := c.pickled,
      paused := false, created_at := m.time + 2, finished_at := -1 } with hrowC
  have t1 : m1.tasks = m.tasks ++ [rowA] := by rw [hrowA, ← hm1]
  have t2 : m2.tasks = m1.tasks ++ [rowB] := by
    have hB2 : rowB = { uuid := m1.nextUuid + 1, action_name := b.className,
                        pickled := b.pickled, paused := false, created_at := m1.time + 1,
                        finished_at := -1 } := by
      rw [hrowB]
      have e1 : m.nextUuid + 2 = m1.nextUuid + 1 := by omega
      have e2 : (m.time + 1 : Int) = m1.time + 1 := by omega
      rw [e1, e2]
    rw [hB2, ← hm2]
    rfl
  have t3 : m3.tasks = m2.tasks ++ [rowC] := by
    have hC2 : rowC = { uuid := m2.nextUuid + 1, action_name := c.className,
                        pickled := c.pickled, paused := false, created_at := m2.time + 1,
                        finished_at := -1 } := by
      rw [hrowC]
      have e1 : m.nextUuid + 3 = m2.nextUuid + 1 := by omega
      have e2 : (m.time + 2 : Int) = m2.time + 1 := by omega
      rw [e1, e2]
    rw [hC2, ← hm3]
    rfl
  have T3 : m3.tasks = ((m.tasks ++ [rowA]) ++ [rowB]) ++ [rowC] := by
    rw [t3, t2, t1]
  have hOldF : m.tasks.filter Memory.taskActive = [] := by
    rw [List.filter_eq_nil_iff]
    intro x hx
    simp [hOld x hx]
  have haA : Memory.taskActive rowA = true := rfl
  have haB : Memory.taskActive rowB = true := rfl
  have haC : Memory.taskActive rowC = true := rfl
  have hfilt3 : m3.tasks.filter Memory.taskActive = [rowA, rowB, rowC] := by
    rw [T3, List.filter_append, List.filter_append, List.filter_append, hOldF]
    simp [List.filter_cons, haA, haB, haC]
  have hpk3 : m3.task_stack_peek = some rowC := by
    refine peek_of_filter hfilt3 rowC (by simp) ?_
    intro x hx hne
    simp only [List.mem_cons, List.not_mem_nil, or_false] at hx
    rcases hx with rfl | rfl | rfl
    · show m.time < m.time + 2
      omega
    · show m.time + 1 < m.time + 2
      omega
    · exact absurd rfl hne
  constructor
  · rw [hpk3]
    show some rowC.uuid = some idc
    rw [hrowC, hidc']
  · refine ⟨rowC,
      { m3 with tasks := m3.tasks.map fun r =>
          if r.uuid = rowC.uuid then { r with finished_at := m3.get_time } else r },
      ?_, ?_, ?_, ?_⟩
    · rw [Memory.task_stack_pop, hpk3]
    · show m.nextUuid + 3 = idc
      omega
    · refine ⟨{ rowC with finished_at := m3.get_time }, ?_, ?_, rfl⟩
      · have hmemC : rowC ∈ m3.tasks := by rw [T3]; simp
        have hmm := List.mem_map_of_mem
          (fun r => if r.uuid = rowC.uuid then { r with finished_at := m3.get_time } else r) hmemC
        have heq : (if rowC.uuid = rowC.uuid then
            ({ rowC with finished_at := m3.get_time } : TaskRow) else rowC) =
            { rowC with finished_at := m3.get_time } := if_pos rfl
        simp only [heq] at hmm
        exact hmm
      · show m.nextUuid + 3 = idc
        omega
    · -- after the pop, the stack surfaces B
      have hmap : m3.tasks.map (fun r =>
          if r.uuid = rowC.uuid then { r with finished_at := m3.get_time } else r) =
          ((m.tasks ++ [rowA]) ++ [rowB]) ++
            [{ rowC with finished_at := m3.get_time }] := by
        rw [T3, List.map_append, List.map_append, List.map_append]
        have hold : m.tasks.map (fun r =>
            if r.uuid = rowC.uuid then { r with finished_at := m3.get_time } else r) =
            m.tasks := by
          refine map_eq_self_of _ _ ?_
          intro x hx
          have := hFresh x hx
          rw [if_neg]
          show ¬ (x.uuid = m.nextUuid + 3)
          omega
        rw [hold]
        have hfA : (if rowA.uuid = rowC.uuid then
            ({ rowA with finished_at := m3.get_time } : TaskRow) else rowA) = rowA := by
          rw [if_neg]
          show ¬ (m.nextUuid + 1 = m.nextUuid + 3)
          omega
        have hfB : (if rowB.uuid = rowC.uuid then
            ({ rowB with finished_at := m3.get_time } : TaskRow) else rowB) = rowB := by
          rw [if_neg]
          show ¬ (m.nextUuid + 2 = m.nextUuid + 3)
          omega
        have hfC : (if rowC.uuid = rowC.uuid then
            ({ rowC with finished_at := m3.get_time } : TaskRow) else rowC) =
            { rowC with finished_at := m3.get_time } := if_pos rfl
        simp only [List.map_cons, List.map_nil, hfA, hfB, hfC]
        simp only [if_true]
      have haC' : Memory.taskActive { rowC with finished_at := m3.get_time } = false := by
        have hgt : m3.get_time = m.time + 2 := htm3
        have hpau : rowC.paused = false := by rw [hrowC]
        simp only [Memory.taskActive, hpau, Bool.not_false, Bool.and_true,
          decide_eq_false_iff_not]
        omega
      have hfilt4 : (m3.tasks.map (fun r =>
          if r.uuid = rowC.uuid then { r with finished_at := m3.get_time } else r)).filter
            Memory.taskActive = [rowA, rowB] := by
        rw [hmap, List.filter_append, List.filter_append, List.filter_append, hOldF]
        simp [List.filter_cons, haA, haB, haC']
      have hpk4 : Memory.task_stack_peek
          { m3 with tasks := m3.tasks.map (fun r =>
              if r.uuid = rowC.uuid then { r with finished_at := m3.get_time } else r) } =
          some rowB := by
        refine peek_of_filter (l := [rowA, rowB]) hfilt4 rowB (by simp) ?_
        intro x hx hne
        simp only [List.mem_cons, List.not_mem_nil, or_false] at hx
        rcases hx with rfl | rfl
        · show m.time < m.time + 1
          omega
        · exact absurd rfl hne
      rw [hpk4]
      show some rowB.uuid = some idb
      rw [hrowB, hidb']

/-- States of the C5 witness run: three tasks pushed onto the empty
store with the clock ticking between pushes. -/
def mL1 : Memory := (TaskNode.create Memory.empty ⟨"Move", "pa"⟩).2

/-- Second state of the C5 witness run. -/
def mL2 : Memory := (TaskNode.create (mL1.add_tick 1) ⟨"Build", "pb"⟩).2

/-- Third state of the C5 witness run. -/
def mL3 : Memory := (TaskNode.create (mL2.add_tick 1) ⟨"Dig", "pc"⟩).2

/-- Witness applying the C5 theorem to a concrete three-push run. -/
theorem task_stack_lifo_witness :
    mL3.task_stack_peek.map (·.uuid) = some 3 ∧
    (∃ popped m4, mL3.task_stack_pop = .ok (popped, m4) ∧ popped.uuid = 3 ∧
      (∃ rc ∈ m4.tasks, rc.uuid = 3 ∧ rc.finished_at = mL3.get_time) ∧
      m4.task_stack_peek.map (·.uuid) = some 2) :=
  task_stack_lifo Memory.empty ⟨"Move", "pa"⟩ ⟨"Build", "pb"⟩ ⟨"Dig", "pc"⟩
    (by intro r hr; simp [Memory.empty] at hr)
    (by intro r hr; simp [Memory.empty] at hr)
    (by simp [Memory.empty])
    1 mL1 2 mL2 3 mL3 rfl rfl rfl

/-! ## C10: literal text materializes a NamedAbstraction, idempotently -/

/-- `NamedAbstractionNode.create` when a row with the name exists:
reuse its uuid, leave the store unchanged. -/
theorem na_create_of_found {m : Memory} {name : String} {r : NARow}
    (hf : m.namedAbstractions.find? (fun x => x.name == name) = some r) :
    NamedAbstractionNode.create m name = (r.uuid, m) := by
  unfold NamedAbstractionNode.create
  rw [hf]

/-- `NamedAbstractionNode.create` when no row with the name exists:
a fresh Memories entry of node type `"NamedAbstraction"` plus the new
`NamedAbstractions` row. -/
theorem na_create_of_missing {m : Memory} {name : String}
    (hf : m.namedAbstractions.find? (fun x => x.name == name) = none) :
    NamedAbstractionNode.create m name = (m.nextUuid + 1,
      { m with
        memories := m.memories ++
          [{ uuid := m.nextUuid + 1, node_type := some "NamedAbstraction",
             create_time := m.time, updated_time := m.time, attended_time := m.time,
             is_snapshot := false }],
        namedAbstractions := m.namedAbstractions ++ [⟨m.nextUuid + 1, name⟩],
        nextUuid := m.nextUuid + 1 }) := by
  unfold NamedAbstractionNode.create
  rw [hf]
  rfl

/-- After `NamedAbstractionNode.create`, a lookup of the name finds the
row whose uuid `create` returned. -/
theorem na_create_find (m : Memory) (name : String) :
    ((NamedAbstractionNode.create m name).2).namedAbstractions.find? (fun x => x.name == name) =
      some ⟨(NamedAbstractionNode.create m name).1, name⟩ := by
  cases hf : m.namedAbstractions.find? (fun x => x.name == name) with
  | some r =>
      rw [na_create_of_found hf]
      have hname : r.name = name := by simpa using List.find?_some hf
      rw [hf]
      cases r
      simp_all
  | none =>
      rw [na_create_of_missing hf]
      simp only [List.find?_append, hf]
      simp

/-- `NamedAbstractionNode.create` only appends to the
`NamedAbstractions` table and never touches the triples. -/
theorem na_create_ext (m : Memory) (name : String) :
    ∃ ext, ((NamedAbstractionNode.create m name).2).namedAbstractions =
        m.namedAbstractions ++ ext ∧
      ((NamedAbstractionNode.create m name).2).triples = m.triples := by
  cases hf : m.namedAbstractions.find? (fun x => x.name == name) with
  | some r =>
      rw [na_create_of_found hf]
      exact ⟨[], by simp, rfl⟩
  | none =>
      rw [na_create_of_missing hf]
      exact ⟨[⟨m.nextUuid + 1, name⟩], rfl, rfl⟩

/-- A successful `find?` on a prefix survives appending. -/
theorem find?_append_left {α : Type} (p : α → Bool) {l1 : List α} (l2 : List α) {r : α}
    (h : l1.find? p = some r) : (l1 ++ l2).find? p = some r := by
  rw [List.find?_append, h]
  rfl

/-- Evaluation of `add_triple` with a subject memid and a nonempty
object text: the asserts pass, a `NamedAbstraction` is created (or
found) for the predicate text and then for the object text, and the
triple row is appended. -/
theorem add_triple_text_eval (m : Memory) (subj : Nat) (pt ot : String)
    (hbeq : (ot == "") = false) :
    m.add_triple (some subj) none "" pt ot 1 = .ok
      { (NamedAbstractionNode.create
          ((NamedAbstractionNode.create { m with nextUuid := m.nextUuid + 1 } pt).2) ot).2 with
        triples := ((NamedAbstractionNode.create
          ((NamedAbstractionNode.create { m with nextUuid := m.nextUuid + 1 } pt).2) ot).2).triples
          ++ [{ uuid := m.nextUuid + 1, subj := subj, subj_text := none,
                pred := (NamedAbstractionNode.create
                  { m with nextUuid := m.nextUuid + 1 } pt).1,
                pred_text := pt,
                obj := (NamedAbstractionNode.create
                  ((NamedAbstractionNode.create { m with nextUuid := m.nextUuid + 1 } pt).2) ot).1,
                obj_text := some ot, confidence := 1 }] } := by
  unfold Memory.add_triple
  simp only [hbeq]
  rfl

/-- Evaluation of `add_triple` with literal text for the subject and
the object (and, as always, the predicate): the asserts pass,
`NamedAbstraction`s are created (or found) for the predicate text, then
the object text, then the subject text, and the triple row is
appended. -/
theorem add_triple_all_text_eval (m : Memory) (stx pt ot : String)
    (hsbeq : (stx == "") = false) (hbeq : (ot == "") = false) :
    m.add_triple none none stx pt ot 1 = .ok
      { (NamedAbstractionNode.create ((NamedAbstractionNode.create
          ((NamedAbstractionNode.create { m with nextUuid := m.nextUuid + 1 } pt).2) ot).2)
          stx).2 with
        triples := ((NamedAbstractionNode.create ((NamedAbstractionNode.create
          ((NamedAbstractionNode.create { m with nextUuid := m.nextUuid + 1 } pt).2) ot).2)
          stx).2).triples
          ++ [{ uuid := m.nextUuid + 1,
                subj := (NamedAbstractionNode.create ((NamedAbstractionNode.create
                  ((NamedAbstractionNode.create { m with nextUuid := m.nextUuid + 1 } pt).2)
                  ot).2) stx).1,
                subj_text := some stx,
                pred := (NamedAbstractionNode.create
                  { m with nextUuid := m.nextUuid + 1 } pt).1,
                pred_text := pt,
                obj := (NamedAbstractionNode.create
                  ((NamedAbstractionNode.create { m with nextUuid := m.nextUuid + 1 } pt).2)
                  ot).1,
                obj_text := some ot, confidence := 1 }] } := by
  unfold Memory.add_triple
  simp only [hsbeq, hbeq]
  rfl

/-- C10: an `add_triple` supplying literal text — for the object, for
the subject, and (always) for the predicate — materializes a
`NamedAbstraction` row for each such text as a side effect; a second
identical `add_triple` creates no new `NamedAbstractions` row and its
inserted triple reuses the very same subject and object uuids; and
`NamedAbstractionNode.create` is idempotent per name.  Stated for both
call shapes: subject given as a memid with object text, and subject
given as literal text with object text. -/
theorem add_triple_materializes (m : Memory) (subj : Nat) (stx pt ot : String)
    (hsubj : stx ≠ "") (hobj : ot ≠ "") :
    (∃ m1 m2,
      m.add_triple (some subj) none "" pt ot 1 = .ok m1 ∧
      m1.add_triple (some subj) none "" pt ot 1 = .ok m2 ∧
      (∃ r ∈ m1.namedAbstractions, r.name = ot) ∧
      (∃ r ∈ m1.namedAbstractions, r.name = pt) ∧
      m2.namedAbstractions = m1.namedAbstractions ∧
      (∃ t1 t2, m1.triples.getLast? = some t1 ∧ m2.triples.getLast? = some t2 ∧
        t1.obj = t2.obj ∧ t1.obj_text = some ot ∧ t2.obj_text = some ot)) ∧
    (∃ m1 m2,
      m.add_triple none none stx pt ot 1 = .ok m1 ∧
      m1.add_triple none none stx pt ot 1 = .ok m2 ∧
      (∃ r ∈ m1.namedAbstractions, r.name = stx) ∧
      (∃ r ∈ m1.namedAbstractions, r.name = ot) ∧
      (∃ r ∈ m1.namedAbstractions, r.name = pt) ∧
      m2.namedAbstractions = m1.namedAbstractions ∧
      (∃ t1 t2, m1.triples.getLast? = some t1 ∧ m2.triples.getLast? = some t2 ∧
        t1.subj = t2.subj ∧ t1.obj = t2.obj ∧
        t1.subj_text = some stx ∧ t2.subj_text = some stx ∧
        t1.obj_text = some ot ∧ t2.obj_text = some ot)) ∧
    (∀ (mm : Memory) (nm : String),
      NamedAbstractionNode.create ((NamedAbstractionNode.create mm nm).2) nm =
        ((NamedAbstractionNode.create mm nm).1, (NamedAbstractionNode.create mm nm).2)) := by
  have hbeq : (ot == "") = false := beq_eq_false_iff_ne.mpr hobj
  have hsbeq : (stx == "") = false := beq_eq_false_iff_ne.mpr hsubj
  have hidem : ∀ (mm : Memory) (nm : String),
      NamedAbstractionNode.create ((NamedAbstractionNode.create mm nm).2) nm =
        ((NamedAbstractionNode.create mm nm).1, (NamedAbstractionNode.create mm nm).2) := by
    intro mm nm
    exact na_create_of_found (na_create_find mm nm)
  refine ⟨?_, ?_, hidem⟩
  · -- subject as a memid, object as text
    set mA : Memory := { m with nextUuid := m.nextUuid + 1 } with hmA
    set p : Nat × Memory := NamedAbstractionNode.create mA pt with hp
    set o : Nat × Memory := NamedAbstractionNode.create p.2 ot with ho
    set row1 : TripleRow := { uuid := m.nextUuid + 1, subj := subj, subj_text := none,
                              pred := p.1, pred_text := pt, obj := o.1, obj_text := some ot,
                              confidence := 1 } with hrow1
    set m1 : Memory := { o.2 with triples := o.2.triples ++ [row1] } with hm1
    have eq1 : m.add_triple (some subj) none "" pt ot 1 = .ok m1 :=
      add_triple_text_eval m subj pt ot hbeq
    have hfindp : p.2.namedAbstractions.find? (fun x => x.name == pt) = some ⟨p.1, pt⟩ :=
      na_create_find mA pt
    have hfindo : o.2.namedAbstractions.find? (fun x => x.name == ot) = some ⟨o.1, ot⟩ :=
      na_create_find p.2 ot
    obtain ⟨extO, hOnas0, hOtrip0⟩ := na_create_ext p.2 ot
    have hOnas : o.2.namedAbstractions = p.2.namedAbstractions ++ extO := hOnas0
    set s2 : Memory := { m1 with nextUuid := m1.nextUuid + 1 } with hs2
    have hfp : s2.namedAbstractions.find? (fun x => x.name == pt) = some ⟨p.1, pt⟩ := by
      show o.2.namedAbstractions.find? (fun x => x.name == pt) = some ⟨p.1, pt⟩
      rw [hOnas]
      exact find?_append_left _ extO hfindp
    have hfo : s2.namedAbstractions.find? (fun x => x.name == ot) = some ⟨o.1, ot⟩ := hfindo
    have ecp : NamedAbstractionNode.create s2 pt = (p.1, s2) := na_create_of_found hfp
    have eco : NamedAbstractionNode.create s2 ot = (o.1, s2) := na_create_of_found hfo
    set row2 : TripleRow := { uuid := m1.nextUuid + 1, subj := subj, subj_text := none,
                              pred := p.1, pred_text := pt, obj := o.1, obj_text := some ot,
                              confidence := 1 } with hrow2
    set m2 : Memory := { s2 with triples := s2.triples ++ [row2] } with hm2
    have eq2 : m1.add_triple (some subj) none "" pt ot 1 = .ok m2 := by
      rw [add_triple_text_eval m1 subj pt ot hbeq, ← hs2]
      simp only [ecp, eco]
    refine ⟨m1, m2, eq1, eq2, ?_, ?_, ?_, ?_⟩
    · exact ⟨⟨o.1, ot⟩, List.mem_of_find?_eq_some hfindo, rfl⟩
    · refine ⟨⟨p.1, pt⟩, ?_, rfl⟩
      show (⟨p.1, pt⟩ : NARow) ∈ o.2.namedAbstractions
      rw [hOnas]
      exact List.mem_append_left _ (List.mem_of_find?_eq_some hfindp)
    · rfl
    · refine ⟨row1, row2, ?_, ?_, rfl, rfl, rfl⟩
      · show (o.2.triples ++ [row1]).getLast? = some row1
        exact List.getLast?_concat _
      · show (s2.triples ++ [row2]).getLast? = some row2
        exact List.getLast?_concat _
  · -- subject as literal text, object as text
    set mA : Memory := { m with nextUuid := m.nextUuid + 1 } with hmA
    set p : Nat × Memory := NamedAbstractionNode.create mA pt with hp
    set o : Nat × Memory := NamedAbstractionNode.create p.2 ot with ho
    set q : Nat × Memory := NamedAbstractionNode.create o.2 stx with hq
    set row1 : TripleRow := { uuid := m.nextUuid + 1, subj := q.1, subj_text := some stx,
                              pred := p.1, pred_text := pt, obj := o.1, obj_text := some ot,
                              confidence := 1 } with hrow1
    set m1 : Memory := { q.2 with triples := q.2.triples ++ [row1] } with hm1
    have eq1 : m.add_triple none none stx pt ot 1 = .ok m1 :=
      add_triple_all_text_eval m stx pt ot hsbeq hbeq
    have hfindp : p.2.namedAbstractions.find? (fun x => x.name == pt) = some ⟨p.1, pt⟩ :=
      na_create_find mA pt
    have hfindo : o.2.namedAbstractions.find? (fun x => x.name == ot) = some ⟨o.1, ot⟩ :=
      na_create_find p.2 ot
    have hfindq : q.2.namedAbstractions.find? (fun x => x.name == stx) = some ⟨q.1, stx⟩ :=
      na_create_find o.2 stx
    obtain ⟨extO, hOnas0, hOtrip0⟩ := na_create_ext p.2 ot
    have hOnas : o.2.namedAbstractions = p.2.namedAbstractions ++ extO := hOnas0
    obtain ⟨extS, hSnas0, hStrip0⟩ := na_create_ext o.2 stx
    have hSnas : q.2.namedAbstractions = o.2.namedAbstractions ++ extS := hSnas0
    set s2 : Memory := { m1 with nextUuid := m1.nextUuid + 1 } with hs2
    have hfp : s2.namedAbstractions.find? (fun x => x.name == pt) = some ⟨p.1, pt⟩ := by
      show q.2.namedAbstractions.find? (fun x => x.name == pt) = some ⟨p.1, pt⟩
      rw [hSnas, hOnas]
      exact find?_append_left _ extS (find?_append_left _ extO hfindp)
    have hfo : s2.namedAbstractions.find? (fun x => x.name == ot) = some ⟨o.1, ot⟩ := by
      show q.2.namedAbstractions.find? (fun x => x.name == ot) = some ⟨o.1, ot⟩
      rw [hSnas]
      exact find?_append_left _ extS hfindo
    have hfq : s2.namedAbstractions.find? (fun x => x.name == stx) = some ⟨q.1, stx⟩ := hfindq
    have ecp : NamedAbstractionNode.create s2 pt = (p.1, s2) := na_create_of_found hfp
    have eco : NamedAbstractionNode.create s2 ot = (o.1, s2) := na_create_of_found hfo
    have ecq : NamedAbstractionNode.create s2 stx = (q.1, s2) := na_create_of_found hfq
    set row2 : TripleRow := { uuid := m1.nextUuid + 1, subj := q.1, subj_text := some stx,
                              pred := p.1, pred_text := pt, obj := o.1, obj_text := some ot,
                              confidence := 1 } with hrow2
    set m2 : Memory := { s2 with triples := s2.triples ++ [row2] } with hm2
    have eq2 : m1.add_triple none none stx pt ot 1 = .ok m2 := by
      rw [add_triple_all_text_eval m1 stx pt ot hsbeq hbeq, ← hs2]
      simp only [ecp, eco, ecq]
    refine ⟨m1, m2, eq1, eq2, ?_, ?_, ?_, ?_, ?_⟩
    · exact ⟨⟨q.1, stx⟩, List.mem_of_find?_eq_some hfindq, rfl⟩
    · refine ⟨⟨o.1, ot⟩, ?_, rfl⟩
      show (⟨o.1, ot⟩ : NARow) ∈ q.2.namedAbstractions
      rw [hSnas]
      exact List.mem_append_left _ (List.mem_of_find?_eq_some hfindo)
    · refine ⟨⟨p.1, pt⟩, ?_, rfl⟩
      show (⟨p.1, pt⟩ : NARow) ∈ q.2.namedAbstractions
      rw [hSnas, hOnas]
      exact List.mem_append_left _
        (List.mem_append_left _ (List.mem_of_find?_eq_some hfindp))
    · rfl
    · refine ⟨row1, row2, ?_, ?_, rfl, rfl, rfl, rfl, rfl, rfl⟩
      · show (q.2.triples ++ [row1]).getLast? = some row1
        exact List.getLast?_concat _
      · show (s2.triples ++ [row2]).getLast? = some row2
        exact List.getLast?_concat _

/-- Witness applying the C10 theorem to concrete literal texts, both
with a subject memid and with a literal subject text. -/
theorem add_triple_materializes_witness :
    (∃ m1 m2,
      Memory.empty.add_triple (some 1) none "" "has_colour" "blue" 1 = .ok m1 ∧
      m1.add_triple (some 1) none "" "has_colour" "blue" 1 = .ok m2 ∧
      (∃ r ∈ m1.namedAbstractions, r.name = "blue") ∧
      (∃ r ∈ m1.namedAbstractions, r.name = "has_colour") ∧
      m2.namedAbstractions = m1.namedAbstractions ∧
      (∃ t1 t2, m1.triples.getLast? = some t1 ∧ m2.triples.getLast? = some t2 ∧
        t1.obj = t2.obj ∧ t1.obj_text = some "blue" ∧ t2.obj_text = some "blue")) ∧
    (∃ m1 m2,
      Memory.empty.add_triple none none "alice" "has_colour" "blue" 1 = .ok m1 ∧
      m1.add_triple none none "alice" "has_colour" "blue" 1 = .ok m2 ∧
      (∃ r ∈ m1.namedAbstractions, r.name = "alice") ∧
      (∃ r ∈ m1.namedAbstractions, r.name = "blue") ∧
      (∃ r ∈ m1.namedAbstractions, r.name = "has_colour") ∧
      m2.namedAbstractions = m1.namedAbstractions ∧
      (∃ t1 t2, m1.triples.getLast? = some t1 ∧ m2.triples.getLast? = some t2 ∧
        t1.subj = t2.subj ∧ t1.obj = t2.obj ∧
        t1.subj_text = some "alice" ∧ t2.subj_text = some "alice" ∧
        t1.obj_text = some "blue" ∧ t2.obj_text = some "blue")) ∧
    (∀ (mm : Memory) (nm : String),
      NamedAbstractionNode.create ((NamedAbstractionNode.create mm nm).2) nm =
        ((NamedAbstractionNode.create mm nm).1, (NamedAbstractionNode.create mm nm).2)) :=
  add_triple_materializes Memory.empty 1 "alice" "has_colour" "blue" (by decide) (by decide)

/-! ## C8: snapshot frame and effect -/

/-- Evaluation of `add_triple` with subject and object memids (as the
archive-linking triples use it): the asserts pass, a `NamedAbstraction`
is created (or found) for the predicate text, and the triple row is
appended. -/
theorem add_triple_ids_eval (m : Memory) (s ob : Nat) (pt : String) :
    m.add_triple (some s) (some ob) "" pt "" 1 = .ok
      { (NamedAbstractionNode.create { m with nextUuid := m.nextUuid + 1 } pt).2 with
        triples := ((NamedAbstractionNode.create { m with nextUuid := m.nextUuid + 1 } pt).2).triples
          ++ [{ uuid := m.nextUuid + 1, subj := s, subj_text := none,
                pred := (NamedAbstractionNode.create { m with nextUuid := m.nextUuid + 1 } pt).1,
                pred_text := pt, obj := ob, obj_text := none, confidence := 1 }] } := rfl

/-- Frame lemma for a memid-to-memid `add_triple`: it succeeds, appends
exactly one triple (with the given subject, predicate text and object),
appends only non-snapshot Memories rows with uuids above the caller's
counter, never lowers the counter, and leaves the other tables and the
clock alone. -/
theorem add_triple_ids_frame (m : Memory) (s ob : Nat) (pt : String) :
    ∃ m', m.add_triple (some s) (some ob) "" pt "" 1 = .ok m' ∧
      (∃ ext, m'.memories = m.memories ++ ext ∧
        ∀ r ∈ ext, r.is_snapshot = false ∧ m.nextUuid < r.uuid) ∧
      (∃ t, m'.triples = m.triples ++ [t] ∧ t.subj = s ∧ t.pred_text = pt ∧ t.obj = ob) ∧
      m.nextUuid ≤ m'.nextUuid ∧
      m'.attrs = m.attrs ∧ m'.tasks = m.tasks ∧ m'.chats = m.chats ∧ m'.time = m.time := by
  cases hf : ({ m with nextUuid := m.nextUuid + 1 } : Memory).namedAbstractions.find?
      (fun x => x.name == pt) with
  | some r =>
      have hc := na_create_of_found hf
      refine ⟨_, add_triple_ids_eval m s ob pt, ⟨[], ?_, by simp⟩,
        ⟨{ uuid := m.nextUuid + 1, subj := s, subj_text := none,
           pred := (NamedAbstractionNode.create { m with nextUuid := m.nextUuid + 1 } pt).1,
           pred_text := pt, obj := ob, obj_text := none, confidence := 1 },
         ?_, rfl, rfl, rfl⟩, ?_, ?_, ?_, ?_, ?_⟩
      · rw [hc]
        try simp
      · rw [hc]
        try simp
      · rw [hc]
        try simp
      · rw [hc]
        try simp
      · rw [hc]
        try simp
      · rw [hc]
        try simp
      · rw [hc]
        try simp
  | none =>
      have hc := na_create_of_missing hf
      refine ⟨_, add_triple_ids_eval m s ob pt,
        ⟨[{ uuid := m.nextUuid + 1 + 1, node_type := some "NamedAbstraction",
            create_time := m.time, updated_time := m.time, attended_time := m.time,
            is_snapshot := false }], ?_, ?_⟩,
        ⟨{ uuid := m.nextUuid + 1, subj := s, subj_text := none,
           pred := (NamedAbstractionNode.create { m with nextUuid := m.nextUuid + 1 } pt).1,
           pred_text := pt, obj := ob, obj_text := none, confidence := 1 },
         ?_, rfl, rfl, rfl⟩, ?_, ?_, ?_, ?_, ?_⟩
      · rw [hc]
        try simp
      · intro r hr
        simp only [List.mem_singleton] at hr
        subst hr
        refine ⟨rfl, ?_⟩
        show m.nextUuid < m.nextUuid + 1 + 1
        omega
      · rw [hc]
        try simp
      · rw [hc]
        try simp
        try omega
      · rw [hc]
        try simp
      · rw [hc]
        try simp
      · rw [hc]
        try simp
      · rw [hc]
        try simp

/-- C8: for an entity with an attribute row, `snapshot` succeeds and (a)
leaves the entity's Memories row and attribute row in place, (b) adds
exactly one new Memories row with `is_snapshot = true` — of the same
node type, stamped with the current time — every other new row being a
non-snapshot `NamedAbstraction`, (c) copies the attribute row into the
archive table under the archive's uuid, (d) adds both the `_archive_of`
and `_has_archive` linking triples, and (e) the archive never appears in
`get_recent_entities`, for any node type and any window. -/
theorem snapshot_spec (m : Memory) (memid : Nat) (k : String) (table archiveTable : String)
    (ar : AttrRow)
    (hfind : m.attrs.find? (fun a => a.table == table && a.uuid == memid) = some ar)
    (mr : MemRow) (hmr : mr ∈ m.memories) (hmru : mr.uuid = memid) (hk : mr.node_type = some k)
    (hFresh : ∀ r ∈ m.memories, r.uuid ≤ m.nextUuid) :
    ∃ s m', m.snapshot memid (some k) table archiveTable = .ok (s, m') ∧
      s = m.nextUuid + 1 ∧
      mr ∈ m'.memories ∧ ar ∈ m'.attrs ∧
      (∃ ext, m'.memories = m.memories ++
          ({ uuid := s, node_type := some k, create_time := m.get_time,
             updated_time := m.get_time, attended_time := m.get_time,
             is_snapshot := true } :: ext) ∧
        ∀ r ∈ ext, r.is_snapshot = false ∧ s < r.uuid) ∧
      m'.attrs = m.attrs ++ [{ table := archiveTable, uuid := s, rest := ar.rest }] ∧
      (∃ t ∈ m'.triples, t.subj = s ∧ t.pred_text = "_archive_of" ∧ t.obj = memid) ∧
      (∃ t ∈ m'.triples, t.subj = memid ∧ t.pred_text = "_has_archive" ∧ t.obj = s) ∧
      (∀ memtype w, s ∉ m'.get_recent_entities memtype w) := by
  set snapRow : MemRow :=
    { uuid := m.nextUuid + 1, node_type := some k, create_time := m.time,
      updated_time := m.time, attended_time := m.time, is_snapshot := true } with hsnap
  set mN2 : Memory :=
    { m with memories := m.memories ++ [snapRow],
             attrs := m.attrs ++ [{ table := archiveTable, uuid := m.nextUuid + 1,
                                    rest := ar.rest }],
             nextUuid := m.nextUuid + 1 } with hmN2
  obtain ⟨mL1', heq1, ⟨ext1, hmem1, hext1⟩, ⟨t1, htr1, ht1s, ht1p, ht1o⟩,
    hn1, hat1, htk1, hch1, hti1⟩ :=
    add_triple_ids_frame mN2 (m.nextUuid + 1) memid "_archive_of"
  obtain ⟨mL2', heq2, ⟨ext2, hmem2, hext2⟩, ⟨t2, htr2, ht2s, ht2p, ht2o⟩,
    hn2, hat2, htk2, hch2, hti2⟩ :=
    add_triple_ids_frame mL1' memid (m.nextUuid + 1) "_has_archive"
  have hlink : mN2.link_archive_to_mem memid (m.nextUuid + 1) = .ok mL2' := by
    unfold Memory.link_archive_to_mem
    rw [heq1]
    show mL1'.add_triple (some memid) (some (m.nextUuid + 1)) "" "_has_archive" "" 1 = .ok mL2'
    exact heq2
  have hsnapeq : m.snapshot memid (some k) table archiveTable = .ok (m.nextUuid + 1, mL2') := by
    unfold Memory.snapshot
    rw [hfind]
    show (match mN2.link_archive_to_mem memid (m.nextUuid + 1) with
      | Except.error e => (Except.error e : Except String (Nat × Memory))
      | Except.ok m'' => Except.ok (m.nextUuid + 1, m'')) = Except.ok (m.nextUuid + 1, mL2')
    rw [hlink]
  have hmemall : mL2'.memories = m.memories ++ (snapRow :: (ext1 ++ ext2)) := by
    rw [hmem2, hmem1]
    show (m.memories ++ [snapRow]) ++ ext1 ++ ext2 = _
    simp [List.append_assoc]
  have hattrsall : mL2'.attrs = m.attrs ++
      [{ table := archiveTable, uuid := m.nextUuid + 1, rest := ar.rest }] := by
    rw [hat2, hat1]
  refine ⟨m.nextUuid + 1, mL2', hsnapeq, rfl, ?_, ?_, ⟨ext1 ++ ext2, hmemall, ?_⟩,
    hattrsall, ?_, ?_, ?_⟩
  · rw [hmemall]
    exact List.mem_append_left _ hmr
  · rw [hattrsall]
    exact List.mem_append_left _ (List.mem_of_find?_eq_some hfind)
  · intro r hr
    rcases List.mem_append.mp hr with h1 | h2
    · obtain ⟨hs, hu⟩ := hext1 r h1
      exact ⟨hs, by
        have : mN2.nextUuid < r.uuid := hu
        show m.nextUuid + 1 < r.uuid
        exact this⟩
    · obtain ⟨hs, hu⟩ := hext2 r h2
      refine ⟨hs, ?_⟩
      have hge : mN2.nextUuid ≤ mL1'.nextUuid := hn1
      have : mN2.nextUuid < r.uuid := lt_of_le_of_lt hge hu
      exact this
  · refine ⟨t1, ?_, ht1s, ht1p, ht1o⟩
    rw [htr2, htr1]
    exact List.mem_append_left _ (List.mem_append_right _ (List.mem_singleton.mpr rfl))
  · refine ⟨t2, ?_, ht2s, ht2p, ht2o⟩
    rw [htr2]
    exact List.mem_append_right _ (List.mem_singleton.mpr rfl)
  · intro memtype w hmemrec
    simp only [Memory.get_recent_entities] at hmemrec
    obtain ⟨row, hrow, hrowu⟩ := List.mem_map.mp hmemrec
    have hrowmem : row ∈ (mL2'.memories.filter fun r =>
        r.node_type == some memtype &&
        decide (r.attended_time ≥ mL2'.get_time - w) && !r.is_snapshot) :=
      (List.perm_insertionSort _ _).mem_iff.mp hrow
    obtain ⟨hrowm, hrowc⟩ := List.mem_filter.mp hrowmem
    rw [Bool.and_eq_true, Bool.and_eq_true] at hrowc
    obtain ⟨⟨_, _⟩, hnosnap⟩ := hrowc
    rw [hmemall] at hrowm
    rcases List.mem_append.mp hrowm with hold | hnew
    · have := hFresh row hold
      omega
    · rcases List.mem_cons.mp hnew with rfl | hext
      · simp at hnosnap
      · rcases List.mem_append.mp hext with h1 | h2
        · obtain ⟨_, hu⟩ := hext1 row h1
          have : mN2.nextUuid < row.uuid := hu
          have h2' : m.nextUuid + 1 < row.uuid := this
          omega
        · obtain ⟨_, hu⟩ := hext2 row h2
          have hge : mN2.nextUuid ≤ mL1'.nextUuid := hn1
          have : mN2.nextUuid < row.uuid := lt_of_le_of_lt hge hu
          have h2' : m.nextUuid + 1 < row.uuid := this
          omega

/-- A store with one player entity and its attribute row, for the C8
witness. -/
def mSnapW : Memory :=
  { Memory.empty with
      memories := [{ uuid := 1, node_type := some "Player", create_time := 0,
                     updated_time := 0, attended_time := 0, is_snapshot := false }],
      attrs := [{ table := "ReferenceObjects", uuid := 1, rest := ["7", "bob"] }],
      nextUuid := 1 }

/-- Witness applying the C8 theorem to a concrete snapshot. -/
theorem snapshot_spec_witness :
    ∃ s m', mSnapW.snapshot 1 (some "Player") "ReferenceObjects" "ArchivedReferenceObjects"
        = .ok (s, m') ∧
      s = mSnapW.nextUuid + 1 ∧
      ({ uuid := 1, node_type := some "Player", create_time := 0, updated_time := 0,
         attended_time := 0, is_snapshot := false } : MemRow) ∈ m'.memories ∧
      ({ table := "ReferenceObjects", uuid := 1, rest := ["7", "bob"] } : AttrRow) ∈ m'.attrs ∧
      (∃ ext, m'.memories = mSnapW.memories ++
          ({ uuid := s, node_type := some "Player", create_time := mSnapW.get_time,
             updated_time := mSnapW.get_time, attended_time := mSnapW.get_time,
             is_snapshot := true } :: ext) ∧
        ∀ r ∈ ext, r.is_snapshot = false ∧ s < r.uuid) ∧
      m'.attrs = mSnapW.attrs ++
        [{ table := "ArchivedReferenceObjects", uuid := s, rest := ["7", "bob"] }] ∧
      (∃ t ∈ m'.triples, t.subj = s ∧ t.pred_text = "_archive_of" ∧ t.obj = 1) ∧
      (∃ t ∈ m'.triples, t.subj = 1 ∧ t.pred_text = "_has_archive" ∧ t.obj = s) ∧
      (∀ memtype w, s ∉ m'.get_recent_entities memtype w) :=
  snapshot_spec mSnapW 1 "Player" "ReferenceObjects" "ArchivedReferenceObjects"
    { table := "ReferenceObjects", uuid := 1, rest := ["7", "bob"] } rfl
    { uuid := 1, node_type := some "Player", create_time := 0, updated_time := 0,
      attended_time := 0, is_snapshot := false }
    (List.mem_singleton.mpr rfl) rfl rfl
    (by intro r hr; simp only [mSnapW, List.mem_singleton] at hr; subst hr; decide)

/-! ## C6: the empty command fails the turn explicitly, pushing nothing -/

/-- C6: a `HUMAN_GIVE_COMMAND` with neither an `action` key nor a
nonempty `action_sequence` makes `Interpreter.step` end the turn
finished, with the fixed non-empty "nothing to do" response, and with
the memory — in particular the task ledger — untouched. -/
theorem step_empty_command (I : Interpreter) (st : InterpState)
    (hdt : I.action_dict.dialogue_type = "HUMAN_GIVE_COMMAND")
    (hact : I.action_dict.action = none)
    (hseq : I.action_dict.action_sequence = none ∨ I.action_dict.action_sequence = some []) :
    Interp.step I st =
      .ok (some "I thought you wanted me to do something, but now I don't know what",
           { st with finished := true }) ∧
    "I thought you wanted me to do something, but now I don't know what" ≠ "" ∧
    ({ st with finished := true } : InterpState).memory.tasks = st.memory.tasks := by
  refine ⟨?_, by decide, rfl⟩
  unfold Interp.step
  rcases hseq with h | h <;> simp [hdt, hact, h]

/-- The initial interpreter state of the concrete runs: empty memory,
nothing finished, empty trace. -/
def cSt0 : InterpState :=
  { memory := Memory.empty, finished := false, loop_data := none,
    archived_loop_data := none, dialogue_stack := [], trace := [] }

/-- An interpreter for a command with no action at all. -/
def cI6 : Interpreter :=
  { speaker := 1,
    action_dict := { dialogue_type := "HUMAN_GIVE_COMMAND", action := none,
                     action_sequence := none },
    ref_locations := fun _ _ => [],
    resolve_condition := fun _ => .ok (),
    move_new_tasks := fun _ _ => .ok [] }

/-- Witness applying the C6 theorem to the empty command. -/
theorem step_empty_command_witness :
    Interp.step cI6 cSt0 =
      .ok (some "I thought you wanted me to do something, but now I don't know what",
           { cSt0 with finished := true }) ∧
    "I thought you wanted me to do something, but now I don't know what" ≠ "" ∧
    ({ cSt0 with finished := true } : InterpState).memory.tasks = cSt0.memory.tasks :=
  step_empty_command cI6 cSt0 rfl rfl (Or.inl rfl)

/-! ## C1: an action_sequence is dispatched in reverse order -/

/-- A bare STOP action. -/
def stopA : ActionDef :=
  { action_type := "STOP", undo_action := none, location := none, stop_condition := none }

/-- A bare RESUME action. -/
def resumeA : ActionDef :=
  { action_type := "RESUME", undo_action := none, location := none, stop_condition := none }

/-- An interpreter for the two-action sequence `[STOP, RESUME]`. -/
def cI1 : Interpreter :=
  { speaker := 1,
    action_dict := { dialogue_type := "HUMAN_GIVE_COMMAND", action := none,
                     action_sequence := some [stopA, resumeA] },
    ref_locations := fun _ _ => [],
    resolve_condition := fun _ => .ok (),
    move_new_tasks := fun _ _ => .ok [] }

/-- Counterexample to C1: for the action_sequence `[STOP, RESUME]`, the
dispatch trace of `Interpreter.step` is `["RESUME", "STOP"]` — the
handler of the second action runs before the handler of the first
(`actions.reverse()` in the source), not in original order. -/
theorem step_dispatch_order_counterexample :
    (Interp.step cI1 cSt0).map (fun p => p.2.trace) = .ok ["RESUME", "STOP"] ∧
    (["RESUME", "STOP"] : List String) ≠ ["STOP", "RESUME"] := ⟨rfl, by decide⟩

/-- `handle_stop` always returns, and never touches the trace. -/
theorem handle_stop_shape (st : InterpState) :
    ∃ r st', Interp.handle_stop st = .ok (r, st') ∧ st'.trace = st.trace := by
  obtain ⟨mem, fin, ld, ald, ds, tr⟩ := st
  unfold Interp.handle_stop
  cases ld <;> dsimp only <;> split <;> exact ⟨_, _, rfl, rfl⟩

/-- `handle_resume` always returns, and never touches the trace. -/
theorem handle_resume_shape (st : InterpState) :
    ∃ r st', Interp.handle_resume st = .ok (r, st') ∧ st'.trace = st.trace := by
  obtain ⟨mem, fin, ld, ald, ds, tr⟩ := st
  unfold Interp.handle_resume Memory.task_stack_resume
  dsimp only
  split
  · cases ald <;> exact ⟨_, _, rfl, rfl⟩
  · exact ⟨_, _, rfl, rfl⟩

/-- `handle_otheraction` always returns, and never touches the trace. -/
theorem handle_otheraction_shape (st : InterpState) :
    ∃ r st', Interp.handle_otheraction st = .ok (r, st') ∧ st'.trace = st.trace :=
  ⟨_, _, rfl, rfl⟩

/-- The `for` loop of `step` over STOP/RESUME/OTHERACTION actions never
raises and appends exactly the action types, in loop order, to the
dispatch trace. -/
theorem runActions_safe (I : Interpreter) :
    ∀ (ds : List ActionDef) (st : InterpState) (r0 : Option String),
      (∀ d ∈ ds, d.action_type = "STOP" ∨ d.action_type = "RESUME" ∨
        d.action_type = "OTHERACTION") →
      ∃ resp st', Interp.runActions I ds st r0 = .ok (resp, st') ∧
        st'.trace = st.trace ++ ds.map (·.action_type) := by
  intro ds
  induction ds with
  | nil =>
      intro st r0 _
      exact ⟨r0, st, rfl, by simp⟩
  | cons d rest ih =>
      intro st r0 hsafe
      have hd := hsafe d (List.mem_cons_self _ _)
      have hkey : Interp.handlerKeys.contains d.action_type = true := by
        rcases hd with h | h | h <;> simp [Interp.handlerKeys, h]
      have hdisp : ∃ r st2,
          Interp.dispatch I d { st with trace := st.trace ++ [d.action_type] } = .ok (r, st2) ∧
          st2.trace = st.trace ++ [d.action_type] := by
        rcases hd with h | h | h
        · obtain ⟨r, st', he, ht⟩ :=
            handle_stop_shape { st with trace := st.trace ++ [d.action_type] }
          rw [h] at he
          exact ⟨r, st', by simp [Interp.dispatch, h, he], ht⟩
        · obtain ⟨r, st', he, ht⟩ :=
            handle_resume_shape { st with trace := st.trace ++ [d.action_type] }
          rw [h] at he
          exact ⟨r, st', by simp [Interp.dispatch, h, he], ht⟩
        · obtain ⟨r, st', he, ht⟩ :=
            handle_otheraction_shape { st with trace := st.trace ++ [d.action_type] }
          rw [h] at he
          exact ⟨r, st', by simp [Interp.dispatch, h, he], ht⟩
      obtain ⟨r, st2, hde, htr2⟩ := hdisp
      obtain ⟨resp, st3, hrun, htr3⟩ :=
        ih st2 r (fun x hx => hsafe x (List.mem_cons_of_mem _ hx))
      refine ⟨resp, st3, ?_, ?_⟩
      · unfold Interp.runActions
        rw [hkey]
        simp only [if_true]
        rw [hde]
        show Interp.runActions I rest st2 r = .ok (resp, st3)
        exact hrun
      · rw [htr3, htr2]
        simp

/-- C1 amended: for a `HUMAN_GIVE_COMMAND` carrying an
`action_sequence` of two or more actions (and no single `action` key),
`Interpreter.step` dispatches the handlers in the *reverse* of the
list's original order — the source reverses the sequence before the
loop, so the handler of the (i+1)-th action runs before that of the
i-th.  Stated for sequences of the always-returning base handlers. -/
theorem step_dispatches_in_reverse (I : Interpreter) (st : InterpState) (seq : List ActionDef)
    (hdt : I.action_dict.dialogue_type = "HUMAN_GIVE_COMMAND")
    (hact : I.action_dict.action = none)
    (hseq : I.action_dict.action_sequence = some seq)
    (hlen : 2 ≤ seq.length)
    (hsafe : ∀ d ∈ seq, d.action_type = "STOP" ∨ d.action_type = "RESUME" ∨
      d.action_type = "OTHERACTION") :
    ∃ resp st', Interp.step I st = .ok (resp, st') ∧
      st'.trace = st.trace ++ (seq.map (·.action_type)).reverse := by
  have hsafe' : ∀ d ∈ seq.reverse, d.action_type = "STOP" ∨ d.action_type = "RESUME" ∨
      d.action_type = "OTHERACTION" := fun d hd => hsafe d (List.mem_reverse.mp hd)
  obtain ⟨resp, st', hrun, htr⟩ := runActions_safe I seq.reverse st none hsafe'
  have hne : seq.reverse.isEmpty = false := by
    rw [List.isEmpty_eq_false]
    intro hnil
    rw [List.reverse_eq_nil_iff] at hnil
    subst hnil
    simp at hlen
  refine ⟨resp, st', ?_, ?_⟩
  · unfold Interp.step
    simp only [hdt, hact, hseq, bne_self_eq_false, Bool.false_eq_true, if_false, hne,
      Bool.not_eq_true]
    rw [hrun]
  · rw [htr, List.map_reverse]

/-- An interpreter for the three-action sequence
`[STOP, OTHERACTION, RESUME]` used as the amended-C1 witness. -/
def cI1w : Interpreter :=
  { speaker := 1,
    action_dict := { dialogue_type := "HUMAN_GIVE_COMMAND", action := none,
                     action_sequence := some [stopA,
                       { action_type := "OTHERACTION", undo_action := none, location := none,
                         stop_condition := none }, resumeA] },
    ref_locations := fun _ _ => [],
    resolve_condition := fun _ => .ok (),
    move_new_tasks := fun _ _ => .ok [] }

/-- Witness applying the amended C1 theorem to a concrete three-action
sequence. -/
theorem step_dispatches_in_reverse_witness :
    ∃ resp st', Interp.step cI1w cSt0 = .ok (resp, st') ∧
      st'.trace = cSt0.trace ++
        (([stopA, { action_type := "OTHERACTION", undo_action := none, location := none,
                    stop_condition := none }, resumeA].map (·.action_type)).reverse) :=
  step_dispatches_in_reverse cI1w cSt0 _ rfl rfl rfl (by decide) (by decide)

end Droidlet
